import Mathlib

/-!
Verification of the geometric core of the Archytas-and-the-Delian-problem
illustration: the fixed-dimension vector/matrix layer, the stepped value
ranges (`ConstStepRange`), the elliptical-arc projector
(`EllipticalArcConfigCalculator`), the cameras, and the sliced tessellation
engine with its per-solid sweep-angle setters.

The TypeScript floating-point numbers are embedded as real numbers (exact
arithmetic); mutation is embedded as explicit state passing; code that can
throw returns `Option`.
-/

namespace Archytas

noncomputable section

open Real

/-! ## Fixed-dimension vectors and matrices (`vectors_and_matrices`) -/

/-- A 3-component column vector (`ColumnVector3`). -/
structure Vec3 where
  x : ℝ
  y : ℝ
  z : ℝ

/-- A 2-component column vector (`ColumnVector2`). -/
structure Vec2 where
  x : ℝ
  y : ℝ

namespace Vec3

/-- Componentwise addition (`add`). -/
def add (a b : Vec3) : Vec3 := ⟨a.x + b.x, a.y + b.y, a.z + b.z⟩

/-- Componentwise subtraction (`subtract`). -/
def subtract (a b : Vec3) : Vec3 := ⟨a.x - b.x, a.y - b.y, a.z - b.z⟩

/-- Scaling by a scalar (`multiplyScalar`). -/
def multiplyScalar (a : Vec3) (s : ℝ) : Vec3 := ⟨a.x * s, a.y * s, a.z * s⟩

/-- In-place `addScaled(addend, scalar)` from the source, as a pure function. -/
def addScaled (a b : Vec3) (s : ℝ) : Vec3 := ⟨a.x + b.x * s, a.y + b.y * s, a.z + b.z * s⟩

/-- Dot product of 3-vectors (`vectorDot`). -/
def vectorDot (a b : Vec3) : ℝ := a.x * b.x + a.y * b.y + a.z * b.z

/-- Cross product of 3-vectors (`vectorCross`). -/
def vectorCross (a b : Vec3) : Vec3 :=
  ⟨a.y * b.z - a.z * b.y, a.z * b.x - a.x * b.z, a.x * b.y - a.y * b.x⟩

/-- Euclidean distance between two points (`distanceTo`). -/
def distanceTo (a b : Vec3) : ℝ :=
  Real.sqrt ((a.x - b.x) * (a.x - b.x) + (a.y - b.y) * (a.y - b.y) +
    (a.z - b.z) * (a.z - b.z))

/-- Vector length (`vectorLength`). -/
def vectorLength (a : Vec3) : ℝ := Real.sqrt (a.vectorDot a)

/-- Normalization of a single column vector (`normalizeColumnVectors` applied
to a `ColumnVector3`): each component is divided by the column length. -/
def normalizeColumnVectors (a : Vec3) : Vec3 :=
  ⟨a.x / a.vectorLength, a.y / a.vectorLength, a.z / a.vectorLength⟩

/-- The zero vector (`new ColumnVector3()`). -/
def zero : Vec3 := ⟨0, 0, 0⟩

end Vec3

namespace Vec2

/-- Dot product of 2-vectors (`vectorDot`). -/
def vectorDot (a b : Vec2) : ℝ := a.x * b.x + a.y * b.y

/-- Euclidean distance between two 2-D points (`distanceTo`). -/
def distanceTo (a b : Vec2) : ℝ :=
  Real.sqrt ((a.x - b.x) * (a.x - b.x) + (a.y - b.y) * (a.y - b.y))

/-- Scaling by a scalar (`multiplyScalar`). -/
def multiplyScalar (a : Vec2) (s : ℝ) : Vec2 := ⟨a.x * s, a.y * s⟩

end Vec2

/-- A 3x3 matrix (`Matrix3`), entries indexed row, column. -/
structure Mat3 where
  e00 : ℝ
  e01 : ℝ
  e02 : ℝ
  e10 : ℝ
  e11 : ℝ
  e12 : ℝ
  e20 : ℝ
  e21 : ℝ
  e22 : ℝ

namespace Mat3

/-- Matrix built from its three column vectors (`setFromColumnVectors`). -/
def setFromColumnVectors (c0 c1 c2 : Vec3) : Mat3 :=
  ⟨c0.x, c1.x, c2.x, c0.y, c1.y, c2.y, c0.z, c1.z, c2.z⟩

/-- Matrix-vector product (`multiply` with a column vector). -/
def mulVec (m : Mat3) (v : Vec3) : Vec3 :=
  ⟨m.e00 * v.x + m.e01 * v.y + m.e02 * v.z,
   m.e10 * v.x + m.e11 * v.y + m.e12 * v.z,
   m.e20 * v.x + m.e21 * v.y + m.e22 * v.z⟩

/-- Matrix-matrix product (`multiply`). -/
def mul (a b : Mat3) : Mat3 :=
  ⟨a.e00 * b.e00 + a.e01 * b.e10 + a.e02 * b.e20,
   a.e00 * b.e01 + a.e01 * b.e11 + a.e02 * b.e21,
   a.e00 * b.e02 + a.e01 * b.e12 + a.e02 * b.e22,
   a.e10 * b.e00 + a.e11 * b.e10 + a.e12 * b.e20,
   a.e10 * b.e01 + a.e11 * b.e11 + a.e12 * b.e21,
   a.e10 * b.e02 + a.e11 * b.e12 + a.e12 * b.e22,
   a.e20 * b.e00 + a.e21 * b.e10 + a.e22 * b.e20,
   a.e20 * b.e01 + a.e21 * b.e11 + a.e22 * b.e21,
   a.e20 * b.e02 + a.e21 * b.e12 + a.e22 * b.e22⟩

/-- Transpose (`transposed`). -/
def transposed (m : Mat3) : Mat3 :=
  ⟨m.e00, m.e10, m.e20, m.e01, m.e11, m.e21, m.e02, m.e12, m.e22⟩

end Mat3

/-- A 2x2 matrix (`Matrix2`), entries indexed row, column. -/
structure Mat2 where
  e00 : ℝ
  e01 : ℝ
  e10 : ℝ
  e11 : ℝ

namespace Mat2

/-- Matrix-vector product (`multiply` with a 2-D column vector). -/
def mulVec (m : Mat2) (v : Vec2) : Vec2 :=
  ⟨m.e00 * v.x + m.e01 * v.y, m.e10 * v.x + m.e11 * v.y⟩

/-- Scaling all entries (`multiplyScalar`). -/
def multiplyScalar (m : Mat2) (s : ℝ) : Mat2 :=
  ⟨m.e00 * s, m.e01 * s, m.e10 * s, m.e11 * s⟩

/-- Closed-form inverse (`invert`): each entry divided by the determinant. -/
def invert (m : Mat2) : Mat2 :=
  let det := m.e00 * m.e11 - m.e01 * m.e10
  ⟨m.e11 / det, -m.e01 / det, -m.e10 / det, m.e00 / det⟩

/-- Quadratic-formula eigenvalues from `getEigenValues`: with
`b = -m00 - m11` and `c = m00*m11 - m10*m01`, the eigenvalues are
`(-b - sqrt(b^2 - 4c))/2` and `(-b + sqrt(b^2 - 4c))/2`, in that order. -/
def getEigenvalues (m : Mat2) : ℝ × ℝ :=
  let b := -m.e00 - m.e11
  let c := m.e00 * m.e11 - m.e10 * m.e01
  let s := Real.sqrt (b * b - 4 * c)
  ((-b - s) / 2, (-b + s) / 2)

/-- Eigenvector candidate selection from `getEigenvectorForEigenvalue`:
the candidate `(-m01, m00 - lambda)` is used when its max-abs component
exceeds that of `(m11 - lambda, -m10)`; otherwise the second candidate is
used. -/
def getEigenvectorForEigenvalue (m : Mat2) (lam : ℝ) : Vec2 :=
  let firstX := -m.e01
  let firstY := m.e00 - lam
  let secondX := m.e11 - lam
  let secondY := -m.e10
  if max |firstX| |firstY| > max |secondX| |secondY| then ⟨firstX, firstY⟩
  else ⟨secondX, secondY⟩

/-- Eigen decomposition (`getEigenvaluesAndVectors`): eigenvalues plus one
eigenvector per eigenvalue (the two columns of the output matrix). -/
def getEigenvaluesAndVectors (m : Mat2) : (ℝ × ℝ) × (Vec2 × Vec2) :=
  let ev := m.getEigenvalues
  (ev, (m.getEigenvectorForEigenvalue ev.1, m.getEigenvectorForEigenvalue ev.2))

end Mat2

/-! ## Stepped value ranges (`parameters` module) -/

/-- State of a `ConstStepRange`: the start and end bounds and the cached
`_stepSize` computed once at construction (`stop` stands for the source's
`end`, which is reserved in Lean). -/
structure ConstStepRange where
  start : ℝ
  stop : ℝ
  stepSizeCache : ℝ
  stepCount : ℕ

namespace ConstStepRange

/-- The `ConstStepRange(start, end, stepCount)` constructor: caches
`_stepSize = (end - start) / stepCount`. -/
def construct (start stop : ℝ) (stepCount : ℕ) : ConstStepRange :=
  ⟨start, stop, (stop - start) / stepCount, stepCount⟩

/-- Static factory `radRangeFromStartEndDegStepCount`: converts degree bounds
to radians. -/
def radRangeFromStartEndDegStepCount (startDeg stopDeg : ℝ) (stepCount : ℕ) :
    ConstStepRange :=
  construct (startDeg * π / 180) (stopDeg * π / 180) stepCount

/-- Accessor `size` (`end - start`). -/
def size (r : ConstStepRange) : ℝ := r.stop - r.start

/-- Accessor `stepSize(stepIdx)`: the cached constant step. -/
def stepSize (r : ConstStepRange) (_stepIdx : ℤ) : ℝ := r.stepSizeCache

/-- The value at a step index: `start + _stepSize * stepIdx`. -/
def atStep (r : ConstStepRange) (stepIdx : ℤ) : ℝ :=
  r.start + r.stepSizeCache * stepIdx

/-- Membership in the closed range: `value >= start && value <= end`. -/
def includes (r : ConstStepRange) (value : ℝ) : Prop :=
  r.start ≤ value ∧ value ≤ r.stop

instance (r : ConstStepRange) (value : ℝ) : Decidable (r.includes value) :=
  inferInstanceAs (Decidable (_ ∧ _))

/-- Index of the last step with value at most the given value:
`Math.floor((value - start) / _stepSize)`. -/
def lastIncludedStepIdx (r : ConstStepRange) (value : ℝ) : ℤ :=
  ⌊(value - r.start) / r.stepSizeCache⌋

/-- The `reverse()` method: swaps `_start` and `_end`; the cached `_stepSize`
is left as computed from the original bounds. -/
def reverse (r : ConstStepRange) : ConstStepRange :=
  ⟨r.stop, r.start, r.stepSizeCache, r.stepCount⟩

/-- The `MutableConstStepRange.setStartEnd` method: overwrites the bounds,
leaving the cached `_stepSize` unchanged. -/
def setStartEnd (r : ConstStepRange) (start stop : ℝ) : ConstStepRange :=
  ⟨start, stop, r.stepSizeCache, r.stepCount⟩

end ConstStepRange

/-! ## Transverse-circle angle transform (`archytas_model`) -/

namespace TransverseCircleAngleRange

/-- Static `fromAngleOapCompliment_rad`: central angle of the transverse
circle from the OAP-angle complement,
`acos(1 - 2 * sin(pi - angleOapCompliment))`. -/
def fromAngleOapCompliment_rad (angleOapCompliment : ℝ) : ℝ :=
  Real.arccos (1 - 2 * Real.sin (π - angleOapCompliment))

/-- Static `toAngleOapCompliment_rad`, documented in the source as the
inverse of `fromAngleOapCompliment_rad`:
`pi - asin((1 - cos(transverseCircleAngle)) / 2)`. -/
def toAngleOapCompliment_rad (transverseCircleAngle : ℝ) : ℝ :=
  π - Real.arcsin ((1 - Real.cos transverseCircleAngle) / 2)

end TransverseCircleAngleRange

/-! ## Planes, arcs and cameras (`parameters`, `plane_objects`, `projections`) -/

/-- Two-argument arctangent with JavaScript `Math.atan2` semantics
(`atan2 0 0 = 0`). -/
def atan2 (y x : ℝ) : ℝ :=
  if 0 < x then Real.arctan (y / x)
  else if x < 0 then
    (if 0 ≤ y then Real.arctan (y / x) + π else Real.arctan (y / x) - π)
  else (if 0 < y then π / 2 else if y < 0 then -(π / 2) else 0)

/-- A 3-D plane with an x and a y direction (`PlaneDirections<3>`). -/
structure PlaneDirections where
  xHat : Vec3
  yHat : Vec3

/-- Derived `zHat` accessor: the cross product of the plane directions. -/
def PlaneDirections.zHat (p : PlaneDirections) : Vec3 := p.xHat.vectorCross p.yHat

/-- A 2-D plane basis (`PlaneDirections<2>`). -/
structure PlaneDirections2 where
  xHat : Vec2
  yHat : Vec2

/-- Parameters of a 3-D elliptical arc (`EllipticalArcParameters<3>`);
also used for the mutable output variant. -/
structure EllipticalArcParameters where
  origin : Vec3
  plane : PlaneDirections
  circularAngle : ConstStepRange
  semiXAxis : ℝ
  semiYAxis : ℝ

/-- Parameters of a 2-D elliptical arc (`EllipticalArcParameters<2>`). -/
structure EllipticalArcParameters2 where
  origin : Vec2
  plane : PlaneDirections2
  circularAngle : ConstStepRange
  semiXAxis : ℝ
  semiYAxis : ℝ

/-- State of a `ProjectionPlaneCamera`: eye position, projection-plane basis
(`zHat` points from the plane center towards the camera) and focal
distance. -/
structure ProjectionPlaneCamera where
  worldPosition : Vec3
  xHat : Vec3
  yHat : Vec3
  zHat : Vec3
  focalDistance : ℝ

namespace ProjectionPlaneCamera

/-- Projection-plane center: the eye point moved `focalDistance` against
`zHat` (`getProjectionPlaneCenter`). -/
def getProjectionPlaneCenter (c : ProjectionPlaneCamera) : Vec3 :=
  c.worldPosition.addScaled c.zHat (-c.focalDistance)

/-- Perspective projection (`ProjectionPlaneCamera.project`): scale the
eye-relative point onto the projection plane, then express it in the
projection-plane basis. -/
def project (c : ProjectionPlaneCamera) (p : Vec3) : Vec3 :=
  let pointFromEyePoint := p.subtract c.worldPosition
  let pointFromEyePointZ := -(pointFromEyePoint.vectorDot c.zHat)
  let q := (pointFromEyePoint.multiplyScalar
      (c.focalDistance / pointFromEyePointZ)).addScaled c.zHat c.focalDistance
  ⟨q.vectorDot c.xHat, q.vectorDot c.yHat, q.vectorDot c.zHat⟩

end ProjectionPlaneCamera

/-- State of a `PlaneCamera` (orthographic/affine camera): the world-to-plane
affine transform. -/
structure PlaneCamera where
  worldToProjectionPlaneTransform : Mat3

/-- Affine application of a 3x3 homogeneous matrix to a 2-D point
(`applyAffine`), dividing by the homogeneous coordinate. -/
def Vec2.applyAffine (v : Vec2) (t : Mat3) : Vec2 :=
  let w := v.x * t.e20 + v.y * t.e21 + t.e22
  ⟨(v.x * t.e00 + v.y * t.e01 + t.e02) / w,
   (v.x * t.e10 + v.y * t.e11 + t.e12) / w⟩

/-- Componentwise 2-D addition (`add`). -/
def Vec2.add (a b : Vec2) : Vec2 := ⟨a.x + b.x, a.y + b.y⟩

/-- Componentwise 2-D subtraction (`subtract`). -/
def Vec2.subtract (a b : Vec2) : Vec2 := ⟨a.x - b.x, a.y - b.y⟩

/-- In-place 2-D `addScaled` as a pure function. -/
def Vec2.addScaled (a b : Vec2) (s : ℝ) : Vec2 := ⟨a.x + b.x * s, a.y + b.y * s⟩

/-- Planar projection (`PlaneCamera.project`): apply the affine transform. -/
def PlaneCamera.project (c : PlaneCamera) (v : Vec2) : Vec2 :=
  v.applyAffine c.worldToProjectionPlaneTransform

/-- Projection of a 2-D plane basis (`PlaneDirections.projectToCamera`):
each direction is translated to the origin, projected, and re-based at the
projected origin. -/
def PlaneDirections2.projectToCamera (p : PlaneDirections2) (c : PlaneCamera)
    (unprojectedOrigin projectedOrigin : Vec2) : PlaneDirections2 :=
  ⟨(c.project (unprojectedOrigin.add p.xHat)).subtract projectedOrigin,
   (c.project (unprojectedOrigin.add p.yHat)).subtract projectedOrigin⟩

/-! ## Elliptical-arc vertex calculator (`plane_objects`) -/

namespace EllipticalArcVertexCalculator

/-- Point of the arc at a circular angle (`calculateVertex`):
`origin + xHat*semiXAxis*cos(t) + yHat*semiYAxis*sin(t)`. -/
def calculateVertex (p : EllipticalArcParameters) (t : ℝ) : Vec3 :=
  (p.origin.addScaled (p.plane.xHat.multiplyScalar p.semiXAxis) (Real.cos t)).addScaled
    (p.plane.yHat.multiplyScalar p.semiYAxis) (Real.sin t)

/-- Circular angle of a point given relative to the ellipse center
(`circularAngleForEllipsePoint`): the y component is rescaled from the
ellipse to its defining circle before `atan2`. -/
def circularAngleForEllipsePoint (p : EllipticalArcParameters)
    (pointFromEllipseCenter : Vec3) : ℝ :=
  atan2 (pointFromEllipseCenter.vectorDot p.plane.yHat / p.semiYAxis * p.semiXAxis)
    (pointFromEllipseCenter.vectorDot p.plane.xHat)

end EllipticalArcVertexCalculator

/-! ## Elliptical-arc projector (`EllipticalArcConfigCalculator`) -/

namespace EllipticalArcConfigCalculator

open EllipticalArcVertexCalculator

/-- Result classification of `calcSkewedConeInInputEllipseFrame`. -/
inductive SkewedEllipticalConeResult where
  | Finite : SkewedEllipticalConeResult
  | AxisDegenerate : SkewedEllipticalConeResult
  | PlaneDegenerate : SkewedEllipticalConeResult
deriving DecidableEq

/-- Ellipse basis matrix with columns `xHat`, `yHat`, `zHat`
(`ellipseBasis`). -/
def ellipseBasis (p : EllipticalArcParameters) : Mat3 :=
  Mat3.setFromColumnVectors p.plane.xHat p.plane.yHat p.plane.zHat

/-- Cone vertex in the input-ellipse frame (`ellipticalConeVertex_c`):
the eye point relative to the ellipse center, expressed in the ellipse
basis. -/
def ellipticalConeVertex_c (p : EllipticalArcParameters)
    (c : ProjectionPlaneCamera) : Vec3 :=
  let e := c.worldPosition.subtract p.origin
  ⟨e.vectorDot p.plane.xHat, e.vectorDot p.plane.yHat, e.vectorDot p.plane.zHat⟩

/-- Ellipse center in the ellipse basis (`ellipseCenter_c`). -/
def ellipseCenter_c (p : EllipticalArcParameters) : Vec3 :=
  ⟨p.origin.vectorDot p.plane.xHat, p.origin.vectorDot p.plane.yHat,
   p.origin.vectorDot p.plane.zHat⟩

/-- Degeneracy tests of `calcSkewedConeInInputEllipseFrame`: a semi-axis
below `eps` is `AxisDegenerate`; an eye point with ellipse-frame z component
below `eps` is `PlaneDegenerate`; otherwise the cone is `Finite`. -/
def calcSkewedConeInInputEllipseFrame (p : EllipticalArcParameters)
    (c : ProjectionPlaneCamera) (eps : ℝ) : SkewedEllipticalConeResult :=
  if |p.semiXAxis| < eps ∨ |p.semiYAxis| < eps then .AxisDegenerate
  else if |(ellipticalConeVertex_c p c).z| < eps then .PlaneDegenerate
  else .Finite

/-- Cone quadric coefficient matrix in the ellipse frame (`conicEqA_c`). -/
def conicEqA_c (p : EllipticalArcParameters) (c : ProjectionPlaneCamera) : Mat3 :=
  let v := ellipticalConeVertex_c p c
  let a := p.semiXAxis
  let b := p.semiYAxis
  { e00 := 1 / (a * a), e01 := 0, e02 := -v.x / (v.z * a * a),
    e10 := 0, e11 := 1 / (b * b), e12 := -v.y / (v.z * b * b),
    e20 := -v.x / (v.z * a * a), e21 := -v.y / (v.z * b * b),
    e22 := (v.x * v.x / (a * a) + v.y * v.y / (b * b) - 1) / (v.z * v.z) }

/-- Cone quadric linear coefficient in the ellipse frame (`conicEqB_c`). -/
def conicEqB_c (p : EllipticalArcParameters) (c : ProjectionPlaneCamera) : Vec3 :=
  ⟨0, 0, 2 / (ellipticalConeVertex_c p c).z⟩

/-- Cone quadric constant coefficient in the ellipse frame (`conicEqC_c`). -/
def conicEqC_c : ℝ := -1

/-- World-frame quadric coefficient matrix from `calcConeInWorldFrame`:
`A = R_e * A_bar * R_e^T`. -/
def conicEqA_s (p : EllipticalArcParameters) (c : ProjectionPlaneCamera) : Mat3 :=
  ((ellipseBasis p).mul (conicEqA_c p c)).mul (ellipseBasis p).transposed

/-- World-frame quadric linear coefficient from `calcConeInWorldFrame`:
`B = R_e * (B_bar - 2 * A_bar * C_bar_e)`. -/
def conicEqB_s (p : EllipticalArcParameters) (c : ProjectionPlaneCamera) : Vec3 :=
  (ellipseBasis p).mulVec
    ((((conicEqA_c p c).mulVec (ellipseCenter_c p)).multiplyScalar (-2)).add
      (conicEqB_c p c))

/-- World-frame quadric constant from `calcConeInWorldFrame`:
`c = C_bar_e^T * A_bar * C_bar_e - B_bar^T * C_bar_e + c_bar`. -/
def conicEqC_s (p : EllipticalArcParameters) (c : ProjectionPlaneCamera) : ℝ :=
  ((conicEqA_c p c).mulVec (ellipseCenter_c p)).vectorDot (ellipseCenter_c p) -
    (conicEqB_c p c).vectorDot (ellipseCenter_c p) + conicEqC_c

/-- Projection-plane conic coefficient matrix from
`calcProjectedEllipseConicEq`: `A_hat = J_p^T * A * J_p` with `J_p` the
projection-plane basis. -/
def conicEqA_p (p : EllipticalArcParameters) (c : ProjectionPlaneCamera) : Mat2 :=
  let A := conicEqA_s p c
  { e00 := c.xHat.vectorDot (A.mulVec c.xHat),
    e01 := c.xHat.vectorDot (A.mulVec c.yHat),
    e10 := c.yHat.vectorDot (A.mulVec c.xHat),
    e11 := c.yHat.vectorDot (A.mulVec c.yHat) }

/-- Projection-plane conic linear coefficient from
`calcProjectedEllipseConicEq`: `B_hat = J_p^T * (B + 2 * A * C_p)`. -/
def conicEqB_p (p : EllipticalArcParameters) (c : ProjectionPlaneCamera) : Vec2 :=
  let w := (((conicEqA_s p c).mulVec c.getProjectionPlaneCenter).multiplyScalar 2).add
    (conicEqB_s p c)
  ⟨c.xHat.vectorDot w, c.yHat.vectorDot w⟩

/-- Projection-plane conic constant from `calcProjectedEllipseConicEq`:
`c_hat = C_p^T * A * C_p + B^T * C_p + c`. -/
def conicEqC_p (p : EllipticalArcParameters) (c : ProjectionPlaneCamera) : ℝ :=
  ((conicEqA_s p c).mulVec c.getProjectionPlaneCenter).vectorDot
      c.getProjectionPlaneCenter +
    (conicEqB_s p c).vectorDot c.getProjectionPlaneCenter + conicEqC_s p c

/-- Projected-ellipse center from `calcProjectedEllipseMatrixEq`:
`K = -A_hat^(-1) * B_hat / 2`. -/
def ellipseEqK_p (p : EllipticalArcParameters) (c : ProjectionPlaneCamera) : Vec2 :=
  (((conicEqA_p p c).invert).mulVec (conicEqB_p p c)).multiplyScalar (-(1 / 2))

/-- Projected-ellipse shape matrix from `calcProjectedEllipseMatrixEq`:
`M = A_hat / (B_hat^T * A_hat^(-1) * B_hat / 4 - c_hat)`. -/
def ellipseEqM_p (p : EllipticalArcParameters) (c : ProjectionPlaneCamera) : Mat2 :=
  (conicEqA_p p c).multiplyScalar
    (1 / ((((conicEqA_p p c).invert).mulVec (conicEqB_p p c)).vectorDot
        (conicEqB_p p c) / 4 - conicEqC_p p c))

/-- Normalization of a 2-D eigenvector column (`normalizeColumnVectors` on a
2x2 matrix column). -/
def normalizeColumn2 (v : Vec2) : Vec2 :=
  ⟨v.x / Real.sqrt (v.vectorDot v), v.y / Real.sqrt (v.vectorDot v)⟩

/-- Angle-range projection (`projectCircularAngle`): project the start, end
and midpoint of the input range, read their circular angles off the
projected ellipse, flip `yHat` if the sweep direction inverted, and wrap the
end angle by `2*pi` if the projected midpoint falls outside the start-end
interval. -/
def projectCircularAngle (p : EllipticalArcParameters) (c : ProjectionPlaneCamera)
    (out0 : EllipticalArcParameters) : EllipticalArcParameters :=
  let startV := (c.project (calculateVertex p p.circularAngle.start)).subtract
    out0.origin
  let startAngle := circularAngleForEllipsePoint out0 startV
  let endV := (c.project (calculateVertex p p.circularAngle.stop)).subtract
    out0.origin
  let endAngle := circularAngleForEllipsePoint out0 endV
  let midV := (c.project (calculateVertex p
    ((p.circularAngle.start + p.circularAngle.stop) / 2))).subtract out0.origin
  let midAngle := circularAngleForEllipsePoint out0 midV
  let needsInversion := midAngle < min startAngle endAngle ∨
    midAngle > max startAngle endAngle
  let needsDirectionFlip := (endAngle > startAngle ∧ p.circularAngle.size < 0) ∨
    (endAngle < startAngle ∧ p.circularAngle.size > 0)
  let plane1 := if needsDirectionFlip then
      PlaneDirections.mk out0.plane.xHat (out0.plane.yHat.multiplyScalar (-1))
    else out0.plane
  let startAngle1 := if needsDirectionFlip then -startAngle else startAngle
  let endAngle1 := if needsDirectionFlip then -endAngle else endAngle
  let startAngle2 := if needsInversion then endAngle1 else startAngle1
  let endAngle2 := if needsInversion then startAngle1 + 2 * π else endAngle1
  { out0 with
    plane := plane1,
    circularAngle := out0.circularAngle.setStartEnd startAngle2 endAngle2 }

/-- Output-parameter calculation of `calcPerspectiveProjection`.  The two
`throw new Error` branches (an indeterminate single axis direction) are
embedded as `none`; `out_prev` is the caller-supplied mutable output object,
whose untouched fields persist. -/
def calcPerspectiveProjection (p : EllipticalArcParameters)
    (c : ProjectionPlaneCamera) (out_prev : EllipticalArcParameters) (eps : ℝ) :
    Option EllipticalArcParameters :=
  let M := ellipseEqM_p p c
  let ev := M.getEigenvalues
  let K := ellipseEqK_p p c
  let origin : Vec3 := ⟨K.x, K.y, 0⟩
  let semiXAxis := 1 / Real.sqrt ev.1
  let semiYAxis := 1 / Real.sqrt ev.2
  let evec0 := M.getEigenvectorForEigenvalue ev.1
  let evec1 := M.getEigenvectorForEigenvalue ev.2
  let planeOpt : Option PlaneDirections :=
    if evec0.vectorDot evec0 < eps then
      (if evec1.vectorDot evec1 < eps then
        some ⟨⟨c.xHat.x, c.xHat.y, 0⟩, ⟨c.yHat.x, c.yHat.y, 0⟩⟩
      else none)
    else
      (if evec1.vectorDot evec1 < eps then none
      else
        some ⟨⟨(normalizeColumn2 evec0).x, (normalizeColumn2 evec0).y, 0⟩,
          ⟨(normalizeColumn2 evec1).x, (normalizeColumn2 evec1).y, 0⟩⟩)
  planeOpt.map fun plane =>
    projectCircularAngle p c
      { origin := origin, plane := plane,
        circularAngle := out_prev.circularAngle,
        semiXAxis := semiXAxis, semiYAxis := semiYAxis }

/-- Degenerate-projection path (`calcDegenerateProjection`): project the two
x-diameter ends and one y-diameter end, reconstruct the center, semi-axes
and axis directions from them, falling back to the projection-plane basis
when both projected semi-axes are below `eps`. -/
def calcDegenerateProjection (p : EllipticalArcParameters)
    (c : ProjectionPlaneCamera) (out_prev : EllipticalArcParameters) (eps : ℝ) :
    EllipticalArcParameters :=
  let xDiameterStart := c.project (calculateVertex p 0)
  let xDiameterEnd := c.project (calculateVertex p π)
  let origin := (xDiameterStart.add xDiameterEnd).multiplyScalar (1 / 2)
  let semiXAxis := xDiameterEnd.distanceTo origin
  let yDiameterStart := c.project (calculateVertex p (π / 2))
  let semiYAxis := yDiameterStart.distanceTo origin
  let plane : PlaneDirections :=
    if eps ≤ |semiXAxis| then
      let xh := (xDiameterStart.subtract origin).normalizeColumnVectors
      ⟨xh, ⟨-xh.y, xh.x, xh.z⟩⟩
    else if eps ≤ |semiYAxis| then
      let yh := (yDiameterStart.subtract origin).normalizeColumnVectors
      ⟨⟨-yh.y, yh.x, yh.z⟩, yh⟩
    else ⟨c.xHat, c.yHat⟩
  projectCircularAngle p c
    { origin := origin, plane := plane,
      circularAngle := out_prev.circularAngle,
      semiXAxis := semiXAxis, semiYAxis := semiYAxis }

/-- Dispatcher `projectToCamera` for a 3-D arc and a perspective camera: the
finite-cone path runs the conic pipeline, everything else takes the
degenerate-projection path (which never throws). -/
def projectToCamera (p : EllipticalArcParameters) (c : ProjectionPlaneCamera)
    (out_prev : EllipticalArcParameters) (eps : ℝ) :
    Option EllipticalArcParameters :=
  match calcSkewedConeInInputEllipseFrame p c eps with
  | .Finite => calcPerspectiveProjection p c out_prev eps
  | _ => some (calcDegenerateProjection p c out_prev eps)

/-- Non-perspective path (`projectNonPerspective`), taken for 2-D arcs and
non-perspective cameras: origin and scaled axis endpoints are projected
directly and the angular range is cloned unchanged. -/
def projectNonPerspective (p : EllipticalArcParameters2) (c : PlaneCamera) :
    EllipticalArcParameters2 :=
  let projectedOrigin := c.project p.origin
  let scaledXHatEnd := c.project (p.origin.addScaled p.plane.xHat p.semiXAxis)
  let semiXAxis := projectedOrigin.distanceTo scaledXHatEnd
  let scaledYHatEnd := c.project (p.origin.addScaled p.plane.yHat p.semiYAxis)
  let semiYAxis := projectedOrigin.distanceTo scaledYHatEnd
  { origin := projectedOrigin,
    plane := p.plane.projectToCamera c p.origin projectedOrigin,
    circularAngle := p.circularAngle,
    semiXAxis := semiXAxis, semiYAxis := semiYAxis }

/-- Dispatcher `projectToCamera` for a 2-D arc: a `PlaneCamera` is never a
perspective camera, so this is always the non-perspective path. -/
def projectToCamera2 (p : EllipticalArcParameters2) (c : PlaneCamera) :
    EllipticalArcParameters2 :=
  projectNonPerspective p c

/-- Residual of the world-frame cone equation computed by
`calcConeInWorldFrame` at a world point: `X^T * A * X + B^T * X + c`. -/
def worldConicResidual (p : EllipticalArcParameters) (c : ProjectionPlaneCamera)
    (X : Vec3) : ℝ :=
  ((conicEqA_s p c).mulVec X).vectorDot X + (conicEqB_s p c).vectorDot X +
    conicEqC_s p c

/-- Residual of the projection-plane conic equation computed by
`calcProjectedEllipseConicEq` at a plane point:
`Y^T * A_hat * Y + B_hat^T * Y + c_hat`. -/
def planeConicResidual (p : EllipticalArcParameters) (c : ProjectionPlaneCamera)
    (Y : Vec2) : ℝ :=
  ((conicEqA_p p c).mulVec Y).vectorDot Y + (conicEqB_p p c).vectorDot Y +
    conicEqC_p p c

/-- Residual of the ellipse-frame cone equation from
`calcSkewedConeInInputEllipseFrame`:
`X^T * A_bar * X + B_bar^T * X + c_bar`. -/
def barConicResidual (p : EllipticalArcParameters) (c : ProjectionPlaneCamera)
    (X : Vec3) : ℝ :=
  ((conicEqA_c p c).mulVec X).vectorDot X + (conicEqB_c p c).vectorDot X +
    conicEqC_c

end EllipticalArcConfigCalculator

/-- Coordinates of a world vector in the ellipse basis (the `R_e^T * v`
pattern of `calcSkewedConeInInputEllipseFrame`). -/
def toEllipseFrame (p : EllipticalArcParameters) (w : Vec3) : Vec3 :=
  ⟨w.vectorDot p.plane.xHat, w.vectorDot p.plane.yHat, w.vectorDot p.plane.zHat⟩

/-! ## Sample projector inputs (used to instantiate closed statements) -/

/-- A caller-supplied mutable output object for the projector. -/
def sampleOutArc : EllipticalArcParameters :=
  ⟨Vec3.zero, ⟨⟨1, 0, 0⟩, ⟨0, 1, 0⟩⟩, ConstStepRange.construct 0 1 1, 0, 0⟩

/-- A degenerate input arc: a circle of radius `1/2` in the xy plane, swept
over `[0, pi]` in one step. -/
def sampleDegenerateArc : EllipticalArcParameters :=
  ⟨Vec3.zero, ⟨⟨1, 0, 0⟩, ⟨0, 1, 0⟩⟩, ConstStepRange.construct 0 π 1,
    1 / 2, 1 / 2⟩

/-- A perspective camera below the xy plane looking along the z axis, with
the identity projection-plane basis and focal distance 1. -/
def sampleBehindCamera : ProjectionPlaneCamera :=
  ⟨⟨0, 0, -2⟩, ⟨1, 0, 0⟩, ⟨0, 1, 0⟩, ⟨0, 0, 1⟩, 1⟩

/-- A non-degenerate input arc: the unit circle in the xy plane, swept over
`[0, pi]` in one step. -/
def sampleUnitCircle : EllipticalArcParameters :=
  ⟨Vec3.zero, ⟨⟨1, 0, 0⟩, ⟨0, 1, 0⟩⟩, ConstStepRange.construct 0 π 1, 1, 1⟩

/-! ## Sliced tessellation (`sliced_tesselation`, `tesselation_base`) -/

/-- Vertex and normal coordinate buffers of a `SurfaceVertexCoords`
(`Float32Array`s of fixed length, allocated once at construction); writes
outside the allocated length are dropped, as for a typed array. -/
structure Buffers where
  vertexCoords : Array Vec3
  normalCoords : Array Vec3

/-- One `writeVertex` call of the `CoordsArrayVertexAndNormalWriter`: store a
vertex and its normal at a vertex index. -/
def Buffers.writeVertex (b : Buffers) (vertexIdx : ℕ) (vn : Vec3 × Vec3) :
    Buffers :=
  ⟨b.vertexCoords.setD vertexIdx vn.1, b.normalCoords.setD vertexIdx vn.2⟩

/-- Application of a sequence of `writeVertex` calls. -/
def Buffers.applyWrites (b : Buffers) (ws : List (ℕ × Vec3 × Vec3)) : Buffers :=
  ws.foldl (fun acc w => acc.writeVertex w.1 w.2) b

/-- Interface of a per-slice vertex calculator (`SliceVertexCalculator`):
its slice-parameter range, the vertex-array layout, and the `writeVertex`
calls it emits for a slice at a given parameter value and start index. -/
structure SliceVertexCalculator where
  sliceParameterRange : ConstStepRange
  startVertexIndex : ℤ → ℤ
  maxVertexCount : ℕ
  calculateVertices : ℝ → ℤ → List (ℕ × Vec3 × Vec3)

namespace ConnectingSliceVertexCalculator

/-- The `sliceCount` getter of `ConnectingSliceVertexCalculator`: always 1. -/
def sliceCount : ℕ := 1

/-- The `sharedVertexCount` getter: the base slice calculator's
`startVertexIndex(0)`. -/
def sharedVertexCount (s : SliceVertexCalculator) : ℤ := s.startVertexIndex 0

/-- The `vertexCount` getter: `sharedVertexCount + 2 * maxVertexCount`. -/
def vertexCount (s : SliceVertexCalculator) : ℤ :=
  sharedVertexCount s + 2 * (s.maxVertexCount : ℤ)

/-- The `copyVerticesFromBase` loop: copy vertices
`[srcStartVertexIdx, srcEndVertexIdx)` of the base buffers to the
destination buffers starting at `destStartVertexIdx`. -/
def copyVerticesFromBase (src : Buffers) (srcStartVertexIdx srcEndVertexIdx : ℤ)
    (destStartVertexIdx : ℤ) (dst : Buffers) : Buffers :=
  (List.range (srcEndVertexIdx - srcStartVertexIdx).toNat).foldl
    (fun acc i =>
      acc.writeVertex (destStartVertexIdx + i).toNat
        (src.vertexCoords.getD (srcStartVertexIdx + i).toNat Vec3.zero,
         src.normalCoords.getD (srcStartVertexIdx + i).toNat Vec3.zero))
    dst

/-- The `updateVertices` method: copy the whole slice `sliceIdx` from the
base buffers, then calculate a fresh slice at the exact `sliceParameter`
after it. -/
def updateVertices (slice : SliceVertexCalculator) (src : Buffers) (sliceIdx : ℤ)
    (sliceParameter : ℝ) (vertexStartIdx : ℤ) (dst : Buffers) : Buffers :=
  let dst1 := copyVerticesFromBase src (slice.startVertexIndex sliceIdx)
    (slice.startVertexIndex (sliceIdx + 1)) vertexStartIdx dst
  dst1.applyWrites
    (slice.calculateVertices sliceParameter (vertexStartIdx + slice.maxVertexCount))

end ConnectingSliceVertexCalculator

/-- State of a `ConnectingSliceVertexCoords`: its own buffers and the last
applied `_sliceParameter` (`none` embeds the initial `NaN`, which compares
unequal to every value). -/
structure ConnectingSliceState where
  buffers : Buffers
  sliceParameter : Option ℝ

/-- The `sliceParameter` setter of `ConnectingSliceVertexCoords`: a repeated
value short-circuits; otherwise the connecting slice is re-pointed at the
last included whole step and recomputed.  The returned flag reports whether
the buffers were updated. -/
def ConnectingSliceState.setSliceParameter (slice : SliceVertexCalculator)
    (src : Buffers) (s : ConnectingSliceState) (value : ℝ) :
    ConnectingSliceState × Bool :=
  if s.sliceParameter = some value then (s, false)
  else
    let sliceIdx := slice.sliceParameterRange.lastIncludedStepIdx value
    (⟨ConnectingSliceVertexCalculator.updateVertices slice src sliceIdx value
        (ConnectingSliceVertexCalculator.sharedVertexCount slice) s.buffers,
      some value⟩, true)

/-- GPU-style draw range of an `IndexedGeometry` (`setDrawRange(start,
count)` arguments); `none` is the three.js default range. -/
structure DrawRange where
  start : ℤ
  count : ℤ
deriving DecidableEq

/-- Mutable state of an `IndexedGeometry`: its start slice, the last set end
slice index (`NaN` initially, embedded as `none`) and the draw range. -/
structure IndexedGeometryState where
  startSliceIndex : ℤ
  endSliceIndex : Option ℤ
  drawRange : Option DrawRange
deriving DecidableEq

/-- The `drawEndSliceIndex` setter of `IndexedGeometry`: an in-bounds slice
index updates the draw range, an out-of-bounds one logs an error and leaves
the state unchanged.  The flag reports the error. -/
def IndexedGeometryState.setDrawEndSliceIndex (g : IndexedGeometryState)
    (startVertexIndex : ℤ → ℤ) (calculatedSliceCount : ℤ) (sliceIdx : ℤ) :
    IndexedGeometryState × Bool :=
  if 0 ≤ sliceIdx ∧ sliceIdx ≤ calculatedSliceCount then
    ({ g with
        endSliceIndex := some sliceIdx,
        drawRange := some ⟨startVertexIndex g.startSliceIndex,
          startVertexIndex sliceIdx⟩ }, false)
  else (g, true)

/-! ## Construction-specific solids (`archytas_model`) -/

/-- Observable effects of one sweep-angle setter call: how many
`setDrawRange` writes happened, whether the connecting-slice buffers were
recomputed, and whether an error was logged. -/
structure SetterEffects where
  drawRangeSets : ℕ
  connectingUpdated : Bool
  errorLogged : Bool
deriving DecidableEq

/-- The no-effect value (an early return). -/
def SetterEffects.none : SetterEffects := ⟨0, false, false⟩

/-- Static collaborators of an `ArchytasCylinder` (also the shape of the
`ArchytasTorus`): the shared slice calculator of its coordinate buffers (its
`sliceParameterRange` is the configured sweep-angle `ValueRange`), the base
coordinate buffers, and the two index-geometry vertex layouts. -/
structure CylinderModel where
  slice : SliceVertexCalculator
  baseBuffers : Buffers
  surfaceStartVertexIndex : ℤ → ℤ
  wireframeStartVertexIndex : ℤ → ℤ

/-- The number of calculated slices of the solid's indexed geometries:
`sliceParameterRange.stepCount + 1`. -/
def CylinderModel.calculatedSliceCount (m : CylinderModel) : ℤ :=
  (m.slice.sliceParameterRange.stepCount : ℤ) + 1

/-- Observable state of an `ArchytasCylinder` (and of an `ArchytasTorus`). -/
structure ArchytasCylinderState where
  surface : IndexedGeometryState
  wireframe : IndexedGeometryState
  connectingSlice : ConnectingSliceState

/-- The `secantAngle_rad` setter of `ArchytasCylinder`: an in-range value
sets both draw ranges to the last included step and re-points the connecting
slice; an out-of-range value only logs an error. -/
def ArchytasCylinderState.setSecantAngle (m : CylinderModel)
    (s : ArchytasCylinderState) (value : ℝ) :
    ArchytasCylinderState × SetterEffects :=
  if m.slice.sliceParameterRange.includes value then
    let stepIdx := m.slice.sliceParameterRange.lastIncludedStepIdx value
    let surfaceRes := s.surface.setDrawEndSliceIndex m.surfaceStartVertexIndex
      m.calculatedSliceCount stepIdx
    let wireframeRes := s.wireframe.setDrawEndSliceIndex
      m.wireframeStartVertexIndex m.calculatedSliceCount
      (if 0 < stepIdx then stepIdx + 1 else stepIdx)
    let csRes := s.connectingSlice.setSliceParameter m.slice m.baseBuffers value
    (⟨surfaceRes.1, wireframeRes.1, csRes.1⟩,
     ⟨(if surfaceRes.2 then 0 else 1) + (if wireframeRes.2 then 0 else 1),
      csRes.2, surfaceRes.2 || wireframeRes.2⟩)
  else (s, ⟨0, false, true⟩)

/-- The `toroidalAngle_rad` setter of `ArchytasTorus`: textually the same
update as the cylinder's `secantAngle_rad` setter. -/
def ArchytasCylinderState.setToroidalAngle (m : CylinderModel)
    (s : ArchytasCylinderState) (value : ℝ) :
    ArchytasCylinderState × SetterEffects :=
  if m.slice.sliceParameterRange.includes value then
    let stepIdx := m.slice.sliceParameterRange.lastIncludedStepIdx value
    let surfaceRes := s.surface.setDrawEndSliceIndex m.surfaceStartVertexIndex
      m.calculatedSliceCount stepIdx
    let wireframeRes := s.wireframe.setDrawEndSliceIndex
      m.wireframeStartVertexIndex m.calculatedSliceCount
      (if 0 < stepIdx then stepIdx + 1 else stepIdx)
    let csRes := s.connectingSlice.setSliceParameter m.slice m.baseBuffers value
    (⟨surfaceRes.1, wireframeRes.1, csRes.1⟩,
     ⟨(if surfaceRes.2 then 0 else 1) + (if wireframeRes.2 then 0 else 1),
      csRes.2, surfaceRes.2 || wireframeRes.2⟩)
  else (s, ⟨0, false, true⟩)

/-- Static collaborators of an `ArchytasCone`: the cylinder-shaped
tessellation collaborators plus the generatrix-slice geometry helpers and
the cylinder radius used by `updatePts`. -/
structure ConeModel where
  slice : SliceVertexCalculator
  baseBuffers : Buffers
  surfaceStartVertexIndex : ℤ → ℤ
  wireframeStartVertexIndex : ℤ → ℤ
  cylinderRadius : ℝ
  centralAngleForAngleOAP : ℝ → ℝ
  vertexOnAxisAtHeight : ℝ → Vec3
  vertexAtCentralAngleAndHeight : ℝ → ℝ → Vec3

/-- The number of calculated slices of the cone's indexed geometries. -/
def ConeModel.calculatedSliceCount (m : ConeModel) : ℤ :=
  (m.slice.sliceParameterRange.stepCount : ℤ) + 1

/-- Observable state of an `ArchytasCone`: tessellation state plus the
stored angle, the label anchor points `ptQ`/`ptT` and the two lines bound to
them. -/
structure ArchytasConeState where
  surface : IndexedGeometryState
  wireframe : IndexedGeometryState
  connectingSlice : ConnectingSliceState
  oapAngleCompliment : ℝ
  ptQ : Vec3
  ptT : Vec3
  lineQt : Vec3 × Vec3
  lineAt : Vec3 × Vec3

/-- The `updatePts` computation of `ArchytasCone`: the axis point `ptQ` and
the generatrix point `ptT` at the height `lenAq` derived from the OAP
angle. -/
def ConeModel.updatePts (m : ConeModel) (oapAngleCompliment : ℝ) : Vec3 × Vec3 :=
  let oapAngle := π / 2 - oapAngleCompliment
  let centralAngle := m.centralAngleForAngleOAP oapAngle
  let lenAq := m.cylinderRadius * (1 + Real.cos (2 * oapAngle))
  (m.vertexOnAxisAtHeight lenAq, m.vertexAtCentralAngleAndHeight centralAngle lenAq)

/-- The `oapAngleCompliment_rad` setter of `ArchytasCone`: an identical value
returns immediately; an in-range value updates draw ranges, the connecting
slice, the points `ptQ`/`ptT`, both lines and the stored angle; an
out-of-range value only logs an error. -/
def ArchytasConeState.setOapAngleCompliment (m : ConeModel)
    (s : ArchytasConeState) (value : ℝ) : ArchytasConeState × SetterEffects :=
  if value = s.oapAngleCompliment then (s, SetterEffects.none)
  else if m.slice.sliceParameterRange.includes value then
    let stepIdx := m.slice.sliceParameterRange.lastIncludedStepIdx value
    let surfaceRes := s.surface.setDrawEndSliceIndex m.surfaceStartVertexIndex
      m.calculatedSliceCount stepIdx
    let wireframeRes := s.wireframe.setDrawEndSliceIndex
      m.wireframeStartVertexIndex m.calculatedSliceCount
      (if 0 < stepIdx then stepIdx + 1 else stepIdx)
    let csRes := s.connectingSlice.setSliceParameter m.slice m.baseBuffers value
    let pts := m.updatePts value
    ({ surface := surfaceRes.1, wireframe := wireframeRes.1,
       connectingSlice := csRes.1, oapAngleCompliment := value,
       ptQ := pts.1, ptT := pts.2,
       lineQt := (pts.1, pts.2), lineAt := (s.lineAt.1, pts.2) },
     ⟨(if surfaceRes.2 then 0 else 1) + (if wireframeRes.2 then 0 else 1),
      csRes.2, surfaceRes.2 || wireframeRes.2⟩)
  else (s, ⟨0, false, true⟩)

/-! ## Sample solid instances (used to instantiate closed statements) -/

/-- A minimal concrete slice calculator over the range `[0, 1]` with one
step: two vertices per generatrix and no shared vertices. -/
def toySlice : SliceVertexCalculator :=
  ⟨ConstStepRange.construct 0 1 1, fun i => 2 * i, 2, fun _ _ => []⟩

/-- A concrete cylinder/torus model built on `toySlice`. -/
def toyCylinderModel : CylinderModel :=
  ⟨toySlice, ⟨#[], #[]⟩, fun i => 6 * i, fun i => 6 * i⟩

/-- A concrete cone model built on `toySlice`. -/
def toyConeModel : ConeModel :=
  ⟨toySlice, ⟨#[], #[]⟩, (fun i => 6 * i), (fun i => 6 * i), 1,
    (fun a => a), (fun _ => Vec3.zero), (fun _ _ => Vec3.zero)⟩

/-- An indexed-geometry state as right after construction. -/
def toyGeometryState : IndexedGeometryState := ⟨0, Option.none, Option.none⟩

/-- A cylinder/torus state as right after construction. -/
def toyCylinderState : ArchytasCylinderState :=
  ⟨toyGeometryState, toyGeometryState, ⟨⟨#[], #[]⟩, Option.none⟩⟩

/-- A cone state as right after construction, with stored angle `1/2`. -/
def toyConeState : ArchytasConeState :=
  ⟨toyGeometryState, toyGeometryState, ⟨⟨#[], #[]⟩, Option.none⟩, 1 / 2,
    Vec3.zero, Vec3.zero, (Vec3.zero, Vec3.zero), (Vec3.zero, Vec3.zero)⟩

/-- A cone state whose revealed slice index matches its stored angle `1/2`
(step 0 of the sample range). -/
def toyConsistentConeState : ArchytasConeState :=
  ⟨⟨0, some 0, Option.none⟩, toyGeometryState, ⟨⟨#[], #[]⟩, Option.none⟩, 1 / 2,
    Vec3.zero, Vec3.zero, (Vec3.zero, Vec3.zero), (Vec3.zero, Vec3.zero)⟩

/-! ## Range semantics (claims C2 and C10) -/

/-- C2: for every `ConstStepRange(start, end, n)` with `n >= 1` and
`start != end`, `atStep(0) = start`, `atStep(n) = end` and
`lastIncludedStepIdx(atStep(k)) = k` for every integer `0 <= k <= n`; and
`radRangeFromStartEndDegStepCount(0, 180, 1)` has `atStep(0) = 0` and
`atStep(1) = pi`. -/
theorem constStepRange_semantics (start stop : ℝ) (n : ℕ) (hn : 1 ≤ n)
    (hne : start ≠ stop) (k : ℤ) (hk0 : 0 ≤ k) (hkn : k ≤ (n : ℤ)) :
    ((ConstStepRange.construct start stop n).atStep 0 = start ∧
      (ConstStepRange.construct start stop n).atStep (n : ℤ) = stop ∧
      (ConstStepRange.construct start stop n).lastIncludedStepIdx
        ((ConstStepRange.construct start stop n).atStep k) = k) ∧
    ((ConstStepRange.radRangeFromStartEndDegStepCount 0 180 1).atStep 0 = 0 ∧
      (ConstStepRange.radRangeFromStartEndDegStepCount 0 180 1).atStep 1 = π) := by
  have hn' : (n : ℝ) ≠ 0 := Nat.cast_ne_zero.mpr (by omega)
  have hc : (stop - start) / (n : ℝ) ≠ 0 :=
    div_ne_zero (sub_ne_zero.mpr (Ne.symm hne)) hn'
  refine ⟨⟨?_, ?_, ?_⟩, ?_, ?_⟩
  · simp [ConstStepRange.construct, ConstStepRange.atStep]
  · simp only [ConstStepRange.construct, ConstStepRange.atStep, Int.cast_natCast]
    rw [div_mul_cancel₀ _ hn']
    ring
  · simp only [ConstStepRange.construct, ConstStepRange.atStep,
      ConstStepRange.lastIncludedStepIdx, add_sub_cancel_left]
    rw [mul_comm, mul_div_assoc, div_self hc, mul_one, Int.floor_intCast]
  · simp [ConstStepRange.radRangeFromStartEndDegStepCount,
      ConstStepRange.construct, ConstStepRange.atStep]
  · simp only [ConstStepRange.radRangeFromStartEndDegStepCount,
      ConstStepRange.construct, ConstStepRange.atStep]
    norm_num

/-- Witness for `constStepRange_semantics` at `start = 0`, `end = 1`,
`n = 1`, `k = 0`. -/
theorem constStepRange_semantics_witness :
    (((ConstStepRange.construct 0 1 1).atStep 0 = 0 ∧
      (ConstStepRange.construct 0 1 1).atStep (1 : ℕ) = 1 ∧
      (ConstStepRange.construct 0 1 1).lastIncludedStepIdx
        ((ConstStepRange.construct 0 1 1).atStep 0) = 0) ∧
    ((ConstStepRange.radRangeFromStartEndDegStepCount 0 180 1).atStep 0 = 0 ∧
      (ConstStepRange.radRangeFromStartEndDegStepCount 0 180 1).atStep 1 = π)) :=
  constStepRange_semantics 0 1 1 le_rfl (by norm_num) 0 le_rfl (by norm_num)

/-- C10 counterexample: for the range `ConstStepRange(0, 1, 1)`, after
`reverse()` the invariant `atStep(0) = start` and `atStep(n) = end` fails:
`atStep(1) = 2` while the new end is `0` (the cached step size is not
recomputed by `reverse`). -/
theorem constStepRange_reverse_counterexample :
    ¬ (((ConstStepRange.construct 0 1 1).reverse).atStep 0 =
        ((ConstStepRange.construct 0 1 1).reverse).start ∧
      ((ConstStepRange.construct 0 1 1).reverse).atStep 1 =
        ((ConstStepRange.construct 0 1 1).reverse).stop) := by
  intro h
  have h2 := h.2
  norm_num [ConstStepRange.construct, ConstStepRange.reverse,
    ConstStepRange.atStep] at h2

/-- C10 amended: after `reverse()` the range still satisfies
`atStep(0) = start` (the new start), but `atStep(n)` equals
`2 * end - start` in terms of the original bounds, which differs from the
new end whenever `start != end`, because `reverse` swaps the bounds without
recomputing the cached step size. -/
theorem constStepRange_reverse_amended (start stop : ℝ) (n : ℕ) (hn : 1 ≤ n)
    (hne : start ≠ stop) :
    ((ConstStepRange.construct start stop n).reverse).atStep 0 =
      ((ConstStepRange.construct start stop n).reverse).start ∧
    ((ConstStepRange.construct start stop n).reverse).atStep (n : ℤ) =
      2 * stop - start ∧
    ((ConstStepRange.construct start stop n).reverse).atStep (n : ℤ) ≠
      ((ConstStepRange.construct start stop n).reverse).stop := by
  have hn' : (n : ℝ) ≠ 0 := Nat.cast_ne_zero.mpr (by omega)
  have hstep : ((ConstStepRange.construct start stop n).reverse).atStep (n : ℤ) =
      2 * stop - start := by
    simp only [ConstStepRange.construct, ConstStepRange.reverse,
      ConstStepRange.atStep, Int.cast_natCast]
    rw [div_mul_cancel₀ _ hn']
    ring
  refine ⟨?_, hstep, ?_⟩
  · simp [ConstStepRange.construct, ConstStepRange.reverse, ConstStepRange.atStep]
  · rw [hstep]
    simp only [ConstStepRange.construct, ConstStepRange.reverse]
    intro h
    exact hne (by linarith)

/-- Witness for `constStepRange_reverse_amended` at `start = 0`, `end = 1`,
`n = 1`. -/
theorem constStepRange_reverse_amended_witness :
    ((ConstStepRange.construct 0 1 1).reverse).atStep 0 =
      ((ConstStepRange.construct 0 1 1).reverse).start ∧
    ((ConstStepRange.construct 0 1 1).reverse).atStep (1 : ℕ) =
      2 * 1 - 0 ∧
    ((ConstStepRange.construct 0 1 1).reverse).atStep (1 : ℕ) ≠
      ((ConstStepRange.construct 0 1 1).reverse).stop :=
  constStepRange_reverse_amended 0 1 1 le_rfl (by norm_num)

/-! ## Transverse-circle angle round trip (claim C9) -/

/-- For angles in the configured domain `[0, pi/2]` the composition of
`toAngleOapCompliment_rad` after `fromAngleOapCompliment_rad` is the
reflection `pi - phi`, not the identity. -/
theorem transverse_roundtrip_formula (φ : ℝ) (h0 : 0 ≤ φ) (h1 : φ ≤ π / 2) :
    TransverseCircleAngleRange.toAngleOapCompliment_rad
      (TransverseCircleAngleRange.fromAngleOapCompliment_rad φ) = π - φ := by
  have hpi := Real.pi_pos
  have hφpi : φ ≤ π := by linarith
  have hs0 : 0 ≤ Real.sin φ := Real.sin_nonneg_of_nonneg_of_le_pi h0 hφpi
  have hs1 : Real.sin φ ≤ 1 := Real.sin_le_one φ
  unfold TransverseCircleAngleRange.toAngleOapCompliment_rad
    TransverseCircleAngleRange.fromAngleOapCompliment_rad
  rw [Real.sin_pi_sub]
  rw [Real.cos_arccos (by linarith) (by linarith)]
  have harg : (1 - (1 - 2 * Real.sin φ)) / 2 = Real.sin φ := by ring
  rw [harg, Real.arcsin_sin (by linarith) h1]

/-- C9: the claimed left-inverse property fails on the solid's configured
angle domain: at `phi = pi/4` the code's round trip
`toAngleOapCompliment_rad(fromAngleOapCompliment_rad(pi/4))` evaluates to
`3*pi/4`, which differs from `pi/4` — contradicting the source's own doc
comment that `toAngleOapCompliment_rad` is the inverse of
`fromAngleOapCompliment_rad`. -/
theorem transverse_roundtrip_at_pi_div_four :
    TransverseCircleAngleRange.toAngleOapCompliment_rad
      (TransverseCircleAngleRange.fromAngleOapCompliment_rad (π / 4)) =
      3 * π / 4 ∧ (3 * π / 4 : ℝ) ≠ π / 4 := by
  have hpi := Real.pi_pos
  constructor
  · rw [transverse_roundtrip_formula (π / 4) (by positivity) (by linarith)]
    ring
  · intro h
    linarith

/-! ## Non-perspective projection (claim C4) -/

/-- C4: for a 2-D arc projected through the (non-perspective) `PlaneCamera`,
the output circular-angle range is the input range unchanged (same start,
end and step count), and each output semi-axis is the distance from the
projected origin to the projection of the corresponding scaled axis
endpoint. -/
theorem projectNonPerspective_semantics (p : EllipticalArcParameters2)
    (c : PlaneCamera) :
    (EllipticalArcConfigCalculator.projectToCamera2 p c).circularAngle =
      p.circularAngle ∧
    (EllipticalArcConfigCalculator.projectToCamera2 p c).semiXAxis =
      (c.project p.origin).distanceTo
        (c.project (p.origin.addScaled p.plane.xHat p.semiXAxis)) ∧
    (EllipticalArcConfigCalculator.projectToCamera2 p c).semiYAxis =
      (c.project p.origin).distanceTo
        (c.project (p.origin.addScaled p.plane.yHat p.semiYAxis)) := by
  refine ⟨rfl, rfl, rfl⟩

/-! ## Out-of-range sweep values (claim C3) -/

/-- C3: for each solid, the sweep-angle setter called with a value outside
the configured `ValueRange` logs an error, does not throw (it is a total
state function) and leaves the entire observable state unchanged; for the
cone the stored angle is assumed in range (it starts at `pi/4` and is only
ever replaced by in-range values), so the identical-value early return
cannot swallow the error. -/
theorem solid_setters_out_of_range (mcy mto : CylinderModel) (mco : ConeModel)
    (scy sto : ArchytasCylinderState) (sco : ArchytasConeState) (value : ℝ)
    (hcy : ¬ mcy.slice.sliceParameterRange.includes value)
    (hto : ¬ mto.slice.sliceParameterRange.includes value)
    (hco : ¬ mco.slice.sliceParameterRange.includes value)
    (hstored : mco.slice.sliceParameterRange.includes sco.oapAngleCompliment) :
    scy.setSecantAngle mcy value = (scy, ⟨0, false, true⟩) ∧
    sto.setToroidalAngle mto value = (sto, ⟨0, false, true⟩) ∧
    sco.setOapAngleCompliment mco value = (sco, ⟨0, false, true⟩) := by
  have hne : value ≠ sco.oapAngleCompliment := by
    intro h
    exact hco (h ▸ hstored)
  refine ⟨?_, ?_, ?_⟩
  · rw [ArchytasCylinderState.setSecantAngle, if_neg hcy]
  · rw [ArchytasCylinderState.setToroidalAngle, if_neg hto]
  · rw [ArchytasConeState.setOapAngleCompliment, if_neg hne, if_neg hco]

/-- Witness for `solid_setters_out_of_range` with the sample solids, value
`2` and the configured range `[0, 1]`. -/
theorem solid_setters_out_of_range_witness :
    toyCylinderState.setSecantAngle toyCylinderModel 2 =
      (toyCylinderState, ⟨0, false, true⟩) ∧
    toyCylinderState.setToroidalAngle toyCylinderModel 2 =
      (toyCylinderState, ⟨0, false, true⟩) ∧
    toyConeState.setOapAngleCompliment toyConeModel 2 =
      (toyConeState, ⟨0, false, true⟩) :=
  solid_setters_out_of_range toyCylinderModel toyCylinderModel toyConeModel
    toyCylinderState toyCylinderState toyConeState 2
    (by norm_num [toyCylinderModel, toySlice, ConstStepRange.construct,
      ConstStepRange.includes])
    (by norm_num [toyCylinderModel, toySlice, ConstStepRange.construct,
      ConstStepRange.includes])
    (by norm_num [toyConeModel, toySlice, ConstStepRange.construct,
      ConstStepRange.includes])
    (by norm_num [toyConeModel, toyConeState, toySlice,
      ConstStepRange.construct, ConstStepRange.includes])

/-! ## Helper lemmas about the sweep-angle setters -/

/-- The clamp-free `lastIncludedStepIdx` of a freshly constructed increasing
range is nonnegative on in-range values. -/
theorem construct_lastIncluded_nonneg (a b : ℝ) (n : ℕ) (hab : a < b)
    (hn : 1 ≤ n) (v : ℝ) (hv : a ≤ v) :
    0 ≤ (ConstStepRange.construct a b n).lastIncludedStepIdx v := by
  have hn' : (0 : ℝ) < n := Nat.cast_pos.mpr (by omega)
  have hc : (0 : ℝ) < (b - a) / n := div_pos (by linarith) hn'
  simp only [ConstStepRange.lastIncludedStepIdx, ConstStepRange.construct]
  exact Int.floor_nonneg.mpr (div_nonneg (by linarith) hc.le)

/-- The `lastIncludedStepIdx` of a freshly constructed increasing range is
at most the step count on in-range values. -/
theorem construct_lastIncluded_le (a b : ℝ) (n : ℕ) (hab : a < b)
    (hn : 1 ≤ n) (v : ℝ) (hv : v ≤ b) :
    (ConstStepRange.construct a b n).lastIncludedStepIdx v ≤ (n : ℤ) := by
  have hn' : ((n : ℝ)) ≠ 0 := Nat.cast_ne_zero.mpr (by omega)
  have hn0 : (0 : ℝ) < n := Nat.cast_pos.mpr (by omega)
  have hc : (0 : ℝ) < (b - a) / n := div_pos (by linarith) hn0
  have hle : (v - a) / ((b - a) / n) ≤ (n : ℝ) := by
    rw [div_le_iff₀ hc, mul_comm, div_mul_cancel₀ _ hn']
    linarith
  simp only [ConstStepRange.lastIncludedStepIdx, ConstStepRange.construct]
  have := Int.floor_le_floor hle
  rwa [Int.floor_natCast] at this

/-- The `lastIncludedStepIdx` of a freshly constructed increasing range is
monotone in the value. -/
theorem construct_lastIncluded_mono (a b : ℝ) (n : ℕ) (hab : a < b)
    (hn : 1 ≤ n) (v1 v2 : ℝ) (h12 : v1 ≤ v2) :
    (ConstStepRange.construct a b n).lastIncludedStepIdx v1 ≤
      (ConstStepRange.construct a b n).lastIncludedStepIdx v2 := by
  have hn0 : (0 : ℝ) < n := Nat.cast_pos.mpr (by omega)
  have hc : (0 : ℝ) < (b - a) / n := div_pos (by linarith) hn0
  simp only [ConstStepRange.lastIncludedStepIdx, ConstStepRange.construct]
  exact Int.floor_le_floor (by gcongr <;> linarith)

/-- Successful `drawEndSliceIndex` update: in-bounds indices set the end
slice index and the draw range, without error. -/
theorem setDrawEndSliceIndex_in_bounds (g : IndexedGeometryState)
    (f : ℤ → ℤ) (cnt i : ℤ) (h0 : 0 ≤ i) (h1 : i ≤ cnt) :
    g.setDrawEndSliceIndex f cnt i =
      ({ g with
          endSliceIndex := some i,
          drawRange := some ⟨f g.startSliceIndex, f i⟩ }, false) := by
  rw [IndexedGeometryState.setDrawEndSliceIndex, if_pos ⟨h0, h1⟩]

/-- After `sliceParameter` is set, the stored parameter is the set value. -/
theorem setSliceParameter_sliceParameter (slice : SliceVertexCalculator)
    (src : Buffers) (cs : ConnectingSliceState) (v : ℝ) :
    ((cs.setSliceParameter slice src v).1).sliceParameter = some v := by
  by_cases h : cs.sliceParameter = some v
  · simp [ConnectingSliceState.setSliceParameter, h]
  · simp [ConnectingSliceState.setSliceParameter, h]

/-- Setting `sliceParameter` to the already-stored value is skipped. -/
theorem setSliceParameter_stable (slice : SliceVertexCalculator)
    (src : Buffers) (cs : ConnectingSliceState) (v : ℝ)
    (h : cs.sliceParameter = some v) :
    cs.setSliceParameter slice src v = (cs, false) := by
  rw [ConnectingSliceState.setSliceParameter, if_pos h]

/-- Explicit form of an in-range `secantAngle_rad` update, assuming the two
draw-range indices are in bounds. -/
theorem setSecantAngle_in_range (m : CylinderModel) (s : ArchytasCylinderState)
    (v : ℝ) (hinc : m.slice.sliceParameterRange.includes v)
    (h0 : 0 ≤ m.slice.sliceParameterRange.lastIncludedStepIdx v)
    (h1 : m.slice.sliceParameterRange.lastIncludedStepIdx v ≤
      m.calculatedSliceCount)
    (h2 : (if 0 < m.slice.sliceParameterRange.lastIncludedStepIdx v then
        m.slice.sliceParameterRange.lastIncludedStepIdx v + 1
      else m.slice.sliceParameterRange.lastIncludedStepIdx v) ≤
      m.calculatedSliceCount) :
    s.setSecantAngle m v =
      (⟨⟨s.surface.startSliceIndex,
          some (m.slice.sliceParameterRange.lastIncludedStepIdx v),
          some ⟨m.surfaceStartVertexIndex s.surface.startSliceIndex,
            m.surfaceStartVertexIndex
              (m.slice.sliceParameterRange.lastIncludedStepIdx v)⟩⟩,
        ⟨s.wireframe.startSliceIndex,
          some (if 0 < m.slice.sliceParameterRange.lastIncludedStepIdx v then
              m.slice.sliceParameterRange.lastIncludedStepIdx v + 1
            else m.slice.sliceParameterRange.lastIncludedStepIdx v),
          some ⟨m.wireframeStartVertexIndex s.wireframe.startSliceIndex,
            m.wireframeStartVertexIndex
              (if 0 < m.slice.sliceParameterRange.lastIncludedStepIdx v then
                m.slice.sliceParameterRange.lastIncludedStepIdx v + 1
              else m.slice.sliceParameterRange.lastIncludedStepIdx v)⟩⟩,
        (s.connectingSlice.setSliceParameter m.slice m.baseBuffers v).1⟩,
       ⟨2, (s.connectingSlice.setSliceParameter m.slice m.baseBuffers v).2,
        false⟩) := by
  have h2' : 0 ≤ (if 0 < m.slice.sliceParameterRange.lastIncludedStepIdx v then
      m.slice.sliceParameterRange.lastIncludedStepIdx v + 1
    else m.slice.sliceParameterRange.lastIncludedStepIdx v) := by
    split <;> omega
  rw [ArchytasCylinderState.setSecantAngle, if_pos hinc]
  simp only [setDrawEndSliceIndex_in_bounds _ _ _ _ h0 h1,
    setDrawEndSliceIndex_in_bounds _ _ _ _ h2' h2]
  rfl

/-- The body of the torus setter is the body of the cylinder setter. -/
theorem setToroidalAngle_eq_setSecantAngle (m : CylinderModel)
    (s : ArchytasCylinderState) (v : ℝ) :
    s.setToroidalAngle m v = s.setSecantAngle m v := rfl

/-- Re-invoking the cylinder setter with the same in-range value leaves the
state unchanged, but performs both draw-range writes again; only the
connecting-slice recomputation is skipped. -/
theorem setSecantAngle_repeat (m : CylinderModel) (s : ArchytasCylinderState)
    (a b : ℝ) (n : ℕ) (hr : m.slice.sliceParameterRange =
      ConstStepRange.construct a b n) (hab : a < b) (hn : 1 ≤ n)
    (hcnt : m.slice.sliceParameterRange.stepCount = n)
    (v : ℝ) (hva : a ≤ v) (hvb : v ≤ b) :
    (s.setSecantAngle m v).1.setSecantAngle m v =
      ((s.setSecantAngle m v).1, ⟨2, false, false⟩) := by
  have hinc : m.slice.sliceParameterRange.includes v := by
    rw [hr]; exact ⟨hva, hvb⟩
  have h0 : 0 ≤ m.slice.sliceParameterRange.lastIncludedStepIdx v := by
    rw [hr]; exact construct_lastIncluded_nonneg a b n hab hn v hva
  have hle : m.slice.sliceParameterRange.lastIncludedStepIdx v ≤ (n : ℤ) := by
    rw [hr]; exact construct_lastIncluded_le a b n hab hn v hvb
  have h1 : m.slice.sliceParameterRange.lastIncludedStepIdx v ≤
      m.calculatedSliceCount := by
    rw [CylinderModel.calculatedSliceCount, hcnt]; omega
  have h2 : (if 0 < m.slice.sliceParameterRange.lastIncludedStepIdx v then
      m.slice.sliceParameterRange.lastIncludedStepIdx v + 1
    else m.slice.sliceParameterRange.lastIncludedStepIdx v) ≤
      m.calculatedSliceCount := by
    rw [CylinderModel.calculatedSliceCount, hcnt]; split <;> omega
  rw [setSecantAngle_in_range m s v hinc h0 h1 h2]
  rw [setSecantAngle_in_range m _ v hinc h0 h1 h2]
  have hcs : ((s.connectingSlice.setSliceParameter m.slice m.baseBuffers v).1).sliceParameter
      = some v := setSliceParameter_sliceParameter _ _ _ _
  rw [setSliceParameter_stable _ _ _ _ hcs]

/-- Explicit form of an in-range `oapAngleCompliment_rad` update on the
cone, assuming the value differs from the stored angle and the draw-range
indices are in bounds. -/
theorem setOapAngleCompliment_in_range (m : ConeModel) (s : ArchytasConeState)
    (v : ℝ) (hne : v ≠ s.oapAngleCompliment)
    (hinc : m.slice.sliceParameterRange.includes v)
    (h0 : 0 ≤ m.slice.sliceParameterRange.lastIncludedStepIdx v)
    (h1 : m.slice.sliceParameterRange.lastIncludedStepIdx v ≤
      m.calculatedSliceCount)
    (h2 : (if 0 < m.slice.sliceParameterRange.lastIncludedStepIdx v then
        m.slice.sliceParameterRange.lastIncludedStepIdx v + 1
      else m.slice.sliceParameterRange.lastIncludedStepIdx v) ≤
      m.calculatedSliceCount) :
    s.setOapAngleCompliment m v =
      (⟨⟨s.surface.startSliceIndex,
          some (m.slice.sliceParameterRange.lastIncludedStepIdx v),
          some ⟨m.surfaceStartVertexIndex s.surface.startSliceIndex,
            m.surfaceStartVertexIndex
              (m.slice.sliceParameterRange.lastIncludedStepIdx v)⟩⟩,
        ⟨s.wireframe.startSliceIndex,
          some (if 0 < m.slice.sliceParameterRange.lastIncludedStepIdx v then
              m.slice.sliceParameterRange.lastIncludedStepIdx v + 1
            else m.slice.sliceParameterRange.lastIncludedStepIdx v),
          some ⟨m.wireframeStartVertexIndex s.wireframe.startSliceIndex,
            m.wireframeStartVertexIndex
              (if 0 < m.slice.sliceParameterRange.lastIncludedStepIdx v then
                m.slice.sliceParameterRange.lastIncludedStepIdx v + 1
              else m.slice.sliceParameterRange.lastIncludedStepIdx v)⟩⟩,
        (s.connectingSlice.setSliceParameter m.slice m.baseBuffers v).1,
        v, (m.updatePts v).1, (m.updatePts v).2,
        ((m.updatePts v).1, (m.updatePts v).2),
        (s.lineAt.1, (m.updatePts v).2)⟩,
       ⟨2, (s.connectingSlice.setSliceParameter m.slice m.baseBuffers v).2,
        false⟩) := by
  have h2' : 0 ≤ (if 0 < m.slice.sliceParameterRange.lastIncludedStepIdx v then
      m.slice.sliceParameterRange.lastIncludedStepIdx v + 1
    else m.slice.sliceParameterRange.lastIncludedStepIdx v) := by
    split <;> omega
  rw [ArchytasConeState.setOapAngleCompliment, if_neg hne, if_pos hinc]
  simp only [setDrawEndSliceIndex_in_bounds _ _ _ _ h0 h1,
    setDrawEndSliceIndex_in_bounds _ _ _ _ h2' h2]
  rfl

/-- The revealed surface slice index after an in-range cone update is the
last included step of the new value, provided the state was consistent
(its revealed index matches its stored angle). -/
theorem setOapAngleCompliment_surface_endSlice (m : ConeModel)
    (s : ArchytasConeState) (a b : ℝ) (n : ℕ)
    (hr : m.slice.sliceParameterRange = ConstStepRange.construct a b n)
    (hab : a < b) (hn : 1 ≤ n)
    (hcnt : m.slice.sliceParameterRange.stepCount = n)
    (v : ℝ) (hva : a ≤ v) (hvb : v ≤ b)
    (hcons : s.surface.endSliceIndex =
      some (m.slice.sliceParameterRange.lastIncludedStepIdx s.oapAngleCompliment)) :
    ((s.setOapAngleCompliment m v).1).surface.endSliceIndex =
        some (m.slice.sliceParameterRange.lastIncludedStepIdx v) ∧
      ((s.setOapAngleCompliment m v).1).oapAngleCompliment = v := by
  by_cases hne : v = s.oapAngleCompliment
  · rw [ArchytasConeState.setOapAngleCompliment, if_pos hne]
    exact ⟨by rw [hcons, hne], hne.symm⟩
  · have hinc : m.slice.sliceParameterRange.includes v := by
      rw [hr]; exact ⟨hva, hvb⟩
    have h0 : 0 ≤ m.slice.sliceParameterRange.lastIncludedStepIdx v := by
      rw [hr]; exact construct_lastIncluded_nonneg a b n hab hn v hva
    have hle : m.slice.sliceParameterRange.lastIncludedStepIdx v ≤ (n : ℤ) := by
      rw [hr]; exact construct_lastIncluded_le a b n hab hn v hvb
    have h1 : m.slice.sliceParameterRange.lastIncludedStepIdx v ≤
        m.calculatedSliceCount := by
      rw [ConeModel.calculatedSliceCount, hcnt]; omega
    have h2 : (if 0 < m.slice.sliceParameterRange.lastIncludedStepIdx v then
        m.slice.sliceParameterRange.lastIncludedStepIdx v + 1
      else m.slice.sliceParameterRange.lastIncludedStepIdx v) ≤
        m.calculatedSliceCount := by
      rw [ConeModel.calculatedSliceCount, hcnt]; split <;> omega
    rw [setOapAngleCompliment_in_range m s v hne hinc h0 h1 h2]
    exact ⟨rfl, rfl⟩

/-- The revealed surface slice index after an in-range cylinder (or torus)
update is the last included step of the new value. -/
theorem setSecantAngle_surface_endSlice (m : CylinderModel)
    (s : ArchytasCylinderState) (a b : ℝ) (n : ℕ)
    (hr : m.slice.sliceParameterRange = ConstStepRange.construct a b n)
    (hab : a < b) (hn : 1 ≤ n)
    (hcnt : m.slice.sliceParameterRange.stepCount = n)
    (v : ℝ) (hva : a ≤ v) (hvb : v ≤ b) :
    ((s.setSecantAngle m v).1).surface.endSliceIndex =
      some (m.slice.sliceParameterRange.lastIncludedStepIdx v) := by
  have hinc : m.slice.sliceParameterRange.includes v := by
    rw [hr]; exact ⟨hva, hvb⟩
  have h0 : 0 ≤ m.slice.sliceParameterRange.lastIncludedStepIdx v := by
    rw [hr]; exact construct_lastIncluded_nonneg a b n hab hn v hva
  have hle : m.slice.sliceParameterRange.lastIncludedStepIdx v ≤ (n : ℤ) := by
    rw [hr]; exact construct_lastIncluded_le a b n hab hn v hvb
  have h1 : m.slice.sliceParameterRange.lastIncludedStepIdx v ≤
      m.calculatedSliceCount := by
    rw [CylinderModel.calculatedSliceCount, hcnt]; omega
  have h2 : (if 0 < m.slice.sliceParameterRange.lastIncludedStepIdx v then
      m.slice.sliceParameterRange.lastIncludedStepIdx v + 1
    else m.slice.sliceParameterRange.lastIncludedStepIdx v) ≤
      m.calculatedSliceCount := by
    rw [CylinderModel.calculatedSliceCount, hcnt]; split <;> omega
  rw [setSecantAngle_in_range m s v hinc h0 h1 h2]

/-! ## Buffer-size invariance of the connecting slice -/

/-- A single `writeVertex` never changes the buffer sizes (a typed array
drops out-of-bounds writes). -/
theorem Buffers.size_writeVertex (b : Buffers) (i : ℕ) (vn : Vec3 × Vec3) :
    (b.writeVertex i vn).vertexCoords.size = b.vertexCoords.size ∧
    (b.writeVertex i vn).normalCoords.size = b.normalCoords.size := by
  simp [Buffers.writeVertex]

/-- A fold of `writeVertex` calls never changes the buffer sizes. -/
theorem Buffers.size_foldl_writeVertex {α : Type} (l : List α) (f : α → ℕ)
    (g : α → Vec3 × Vec3) (b : Buffers) :
    ((l.foldl (fun acc x => acc.writeVertex (f x) (g x)) b)).vertexCoords.size =
      b.vertexCoords.size ∧
    ((l.foldl (fun acc x => acc.writeVertex (f x) (g x)) b)).normalCoords.size =
      b.normalCoords.size := by
  induction l generalizing b with
  | nil => exact ⟨rfl, rfl⟩
  | cons x xs ih =>
    simp only [List.foldl_cons]
    refine ⟨?_, ?_⟩
    · rw [(ih (b.writeVertex (f x) (g x))).1, (b.size_writeVertex (f x) (g x)).1]
    · rw [(ih (b.writeVertex (f x) (g x))).2, (b.size_writeVertex (f x) (g x)).2]

/-- The connecting-slice `updateVertices` never changes the buffer sizes. -/
theorem ConnectingSliceVertexCalculator.size_updateVertices
    (slice : SliceVertexCalculator) (src : Buffers) (sliceIdx : ℤ)
    (sliceParameter : ℝ) (vertexStartIdx : ℤ) (dst : Buffers) :
    (ConnectingSliceVertexCalculator.updateVertices slice src sliceIdx
        sliceParameter vertexStartIdx dst).vertexCoords.size =
      dst.vertexCoords.size ∧
    (ConnectingSliceVertexCalculator.updateVertices slice src sliceIdx
        sliceParameter vertexStartIdx dst).normalCoords.size =
      dst.normalCoords.size := by
  unfold ConnectingSliceVertexCalculator.updateVertices
    ConnectingSliceVertexCalculator.copyVerticesFromBase Buffers.applyWrites
  constructor
  · rw [(Buffers.size_foldl_writeVertex _ _ _ _).1,
      (Buffers.size_foldl_writeVertex _ _ _ _).1]
  · rw [(Buffers.size_foldl_writeVertex _ _ _ _).2,
      (Buffers.size_foldl_writeVertex _ _ _ _).2]

/-- Any single `sliceParameter` update preserves the connecting-slice buffer
sizes. -/
theorem size_setSliceParameter (slice : SliceVertexCalculator) (src : Buffers)
    (cs : ConnectingSliceState) (v : ℝ) :
    ((cs.setSliceParameter slice src v).1).buffers.vertexCoords.size =
      cs.buffers.vertexCoords.size ∧
    ((cs.setSliceParameter slice src v).1).buffers.normalCoords.size =
      cs.buffers.normalCoords.size := by
  by_cases h : cs.sliceParameter = some v
  · simp [ConnectingSliceState.setSliceParameter, h]
  · simp only [ConnectingSliceState.setSliceParameter, if_neg h]
    exact ConnectingSliceVertexCalculator.size_updateVertices _ _ _ _ _ _

/-- Any sequence of `sliceParameter` updates preserves the connecting-slice
buffer sizes. -/
theorem size_foldl_setSliceParameter (slice : SliceVertexCalculator)
    (src : Buffers) (cs0 : ConnectingSliceState) (vals : List ℝ) :
    ((vals.foldl (fun cs v => (cs.setSliceParameter slice src v).1)
        cs0)).buffers.vertexCoords.size = cs0.buffers.vertexCoords.size ∧
    ((vals.foldl (fun cs v => (cs.setSliceParameter slice src v).1)
        cs0)).buffers.normalCoords.size = cs0.buffers.normalCoords.size := by
  induction vals generalizing cs0 with
  | nil => exact ⟨rfl, rfl⟩
  | cons v vs ih =>
    simp only [List.foldl_cons]
    refine ⟨?_, ?_⟩
    · rw [(ih _).1, (size_setSliceParameter slice src cs0 v).1]
    · rw [(ih _).2, (size_setSliceParameter slice src cs0 v).2]

/-! ## Draw-range monotonicity and O(1) connecting slice (claim C6) -/

/-- C6: for each solid, applying two successive increasing in-range sweep
values never decreases the revealed surface slice index (the cone is assumed
to start consistent: its revealed index matches its stored angle); and the
connecting-slice calculator has `sliceCount = 1`, its vertex count is the
constant `sharedVertexCount + 2 * maxVertexCount` fixed by the slice layout,
and no sequence of `sliceParameter` updates ever changes the connecting
buffer sizes. -/
theorem solids_monotone_reveal_and_const_connecting
    (mcy mto : CylinderModel) (mco : ConeModel)
    (scy sto : ArchytasCylinderState) (sco : ArchytasConeState)
    (a1 b1 a2 b2 a3 b3 : ℝ) (n1 n2 n3 : ℕ)
    (hr1 : mcy.slice.sliceParameterRange = ConstStepRange.construct a1 b1 n1)
    (hab1 : a1 < b1) (hn1 : 1 ≤ n1)
    (hcnt1 : mcy.slice.sliceParameterRange.stepCount = n1)
    (hr2 : mto.slice.sliceParameterRange = ConstStepRange.construct a2 b2 n2)
    (hab2 : a2 < b2) (hn2 : 1 ≤ n2)
    (hcnt2 : mto.slice.sliceParameterRange.stepCount = n2)
    (hr3 : mco.slice.sliceParameterRange = ConstStepRange.construct a3 b3 n3)
    (hab3 : a3 < b3) (hn3 : 1 ≤ n3)
    (hcnt3 : mco.slice.sliceParameterRange.stepCount = n3)
    (v1 v2 w1 w2 u1 u2 : ℝ) (h12 : v1 ≤ v2) (hw12 : w1 ≤ w2) (hu12 : u1 ≤ u2)
    (hv1 : a1 ≤ v1 ∧ v1 ≤ b1) (hv2 : a1 ≤ v2 ∧ v2 ≤ b1)
    (hw1 : a2 ≤ w1 ∧ w1 ≤ b2) (hw2 : a2 ≤ w2 ∧ w2 ≤ b2)
    (hu1 : a3 ≤ u1 ∧ u1 ≤ b3) (hu2 : a3 ≤ u2 ∧ u2 ≤ b3)
    (hcons : sco.surface.endSliceIndex =
      some (mco.slice.sliceParameterRange.lastIncludedStepIdx
        sco.oapAngleCompliment)) :
    (∃ i1 i2 : ℤ,
      ((scy.setSecantAngle mcy v1).1).surface.endSliceIndex = some i1 ∧
      ((((scy.setSecantAngle mcy v1).1).setSecantAngle mcy v2).1).surface.endSliceIndex =
        some i2 ∧ i1 ≤ i2) ∧
    (∃ j1 j2 : ℤ,
      ((sto.setToroidalAngle mto w1).1).surface.endSliceIndex = some j1 ∧
      ((((sto.setToroidalAngle mto w1).1).setToroidalAngle mto w2).1).surface.endSliceIndex =
        some j2 ∧ j1 ≤ j2) ∧
    (∃ k1 k2 : ℤ,
      ((sco.setOapAngleCompliment mco u1).1).surface.endSliceIndex = some k1 ∧
      ((((sco.setOapAngleCompliment mco u1).1).setOapAngleCompliment mco u2).1).surface.endSliceIndex =
        some k2 ∧ k1 ≤ k2) ∧
    ConnectingSliceVertexCalculator.sliceCount = 1 ∧
    (∀ sl : SliceVertexCalculator,
      ConnectingSliceVertexCalculator.vertexCount sl =
        ConnectingSliceVertexCalculator.sharedVertexCount sl +
          2 * (sl.maxVertexCount : ℤ)) ∧
    (∀ (sl : SliceVertexCalculator) (src : Buffers) (cs0 : ConnectingSliceState)
      (vals : List ℝ),
      ((vals.foldl (fun cs v => (cs.setSliceParameter sl src v).1)
          cs0)).buffers.vertexCoords.size = cs0.buffers.vertexCoords.size ∧
      ((vals.foldl (fun cs v => (cs.setSliceParameter sl src v).1)
          cs0)).buffers.normalCoords.size = cs0.buffers.normalCoords.size) := by
  refine ⟨?_, ?_, ?_, rfl, fun _ => rfl, fun sl src cs0 vals =>
    size_foldl_setSliceParameter sl src cs0 vals⟩
  · refine ⟨mcy.slice.sliceParameterRange.lastIncludedStepIdx v1,
      mcy.slice.sliceParameterRange.lastIncludedStepIdx v2,
      setSecantAngle_surface_endSlice mcy scy a1 b1 n1 hr1 hab1 hn1 hcnt1 v1
        hv1.1 hv1.2,
      setSecantAngle_surface_endSlice mcy _ a1 b1 n1 hr1 hab1 hn1 hcnt1 v2
        hv2.1 hv2.2, ?_⟩
    rw [hr1]
    exact construct_lastIncluded_mono a1 b1 n1 hab1 hn1 v1 v2 h12
  · refine ⟨mto.slice.sliceParameterRange.lastIncludedStepIdx w1,
      mto.slice.sliceParameterRange.lastIncludedStepIdx w2, ?_, ?_, ?_⟩
    · rw [setToroidalAngle_eq_setSecantAngle]
      exact setSecantAngle_surface_endSlice mto sto a2 b2 n2 hr2 hab2 hn2 hcnt2
        w1 hw1.1 hw1.2
    · rw [setToroidalAngle_eq_setSecantAngle, setToroidalAngle_eq_setSecantAngle]
      exact setSecantAngle_surface_endSlice mto _ a2 b2 n2 hr2 hab2 hn2 hcnt2
        w2 hw2.1 hw2.2
    · rw [hr2]
      exact construct_lastIncluded_mono a2 b2 n2 hab2 hn2 w1 w2 hw12
  · have hstep1 := setOapAngleCompliment_surface_endSlice mco sco a3 b3 n3 hr3
      hab3 hn3 hcnt3 u1 hu1.1 hu1.2 hcons
    have hcons1 : ((sco.setOapAngleCompliment mco u1).1).surface.endSliceIndex =
        some (mco.slice.sliceParameterRange.lastIncludedStepIdx
          ((sco.setOapAngleCompliment mco u1).1).oapAngleCompliment) := by
      rw [hstep1.2, hstep1.1]
    have hstep2 := setOapAngleCompliment_surface_endSlice mco _ a3 b3 n3 hr3
      hab3 hn3 hcnt3 u2 hu2.1 hu2.2 hcons1
    refine ⟨mco.slice.sliceParameterRange.lastIncludedStepIdx u1,
      mco.slice.sliceParameterRange.lastIncludedStepIdx u2,
      hstep1.1, hstep2.1, ?_⟩
    rw [hr3]
    exact construct_lastIncluded_mono a3 b3 n3 hab3 hn3 u1 u2 hu12

/-- Witness for `solids_monotone_reveal_and_const_connecting` on the sample
solids with the range `[0, 1]` and increasing values. -/
theorem solids_monotone_reveal_witness :
    (∃ i1 i2 : ℤ,
      ((toyCylinderState.setSecantAngle toyCylinderModel (1 / 3)).1).surface.endSliceIndex =
        some i1 ∧
      ((((toyCylinderState.setSecantAngle toyCylinderModel (1 / 3)).1).setSecantAngle
          toyCylinderModel (1 / 2)).1).surface.endSliceIndex = some i2 ∧
      i1 ≤ i2) ∧
    (∃ j1 j2 : ℤ,
      ((toyCylinderState.setToroidalAngle toyCylinderModel (1 / 3)).1).surface.endSliceIndex =
        some j1 ∧
      ((((toyCylinderState.setToroidalAngle toyCylinderModel (1 / 3)).1).setToroidalAngle
          toyCylinderModel (1 / 2)).1).surface.endSliceIndex = some j2 ∧
      j1 ≤ j2) ∧
    (∃ k1 k2 : ℤ,
      ((toyConsistentConeState.setOapAngleCompliment toyConeModel (1 / 3)).1).surface.endSliceIndex =
        some k1 ∧
      ((((toyConsistentConeState.setOapAngleCompliment toyConeModel (1 / 3)).1).setOapAngleCompliment
          toyConeModel (1 / 2)).1).surface.endSliceIndex = some k2 ∧
      k1 ≤ k2) ∧
    ConnectingSliceVertexCalculator.sliceCount = 1 ∧
    (∀ sl : SliceVertexCalculator,
      ConnectingSliceVertexCalculator.vertexCount sl =
        ConnectingSliceVertexCalculator.sharedVertexCount sl +
          2 * (sl.maxVertexCount : ℤ)) ∧
    (∀ (sl : SliceVertexCalculator) (src : Buffers) (cs0 : ConnectingSliceState)
      (vals : List ℝ),
      ((vals.foldl (fun cs v => (cs.setSliceParameter sl src v).1)
          cs0)).buffers.vertexCoords.size = cs0.buffers.vertexCoords.size ∧
      ((vals.foldl (fun cs v => (cs.setSliceParameter sl src v).1)
          cs0)).buffers.normalCoords.size = cs0.buffers.normalCoords.size) :=
  solids_monotone_reveal_and_const_connecting toyCylinderModel toyCylinderModel
    toyConeModel toyCylinderState toyCylinderState toyConsistentConeState
    0 1 0 1 0 1 1 1 1 rfl (by norm_num) le_rfl rfl rfl (by norm_num) le_rfl rfl
    rfl (by norm_num) le_rfl rfl (1 / 3) (1 / 2) (1 / 3) (1 / 2) (1 / 3) (1 / 2)
    (by norm_num) (by norm_num) (by norm_num)
    (by constructor <;> norm_num) (by constructor <;> norm_num)
    (by constructor <;> norm_num) (by constructor <;> norm_num)
    (by constructor <;> norm_num) (by constructor <;> norm_num)
    (by norm_num [toyConsistentConeState, toyGeometryState, toyConeModel,
      toySlice, ConstStepRange.construct, ConstStepRange.lastIncludedStepIdx])

/-! ## Identical sweep value (claim C7) -/

/-- C7 counterexample: in the sample cylinder, after the secant angle `1/2`
has been applied (so `1/2` is the stored sweep value), invoking the setter
with `1/2` again is not a plain no-op: it performs both draw-range writes
again (the cylinder and torus setters have no equality short-circuit; only
the connecting-slice buffer update is skipped). -/
theorem setter_identical_value_counterexample :
    ((toyCylinderState.setSecantAngle toyCylinderModel (1 / 2)).1.connectingSlice.sliceParameter
        = some (1 / 2)) ∧
    ((toyCylinderState.setSecantAngle toyCylinderModel (1 / 2)).1.setSecantAngle
        toyCylinderModel (1 / 2)).2 ≠ SetterEffects.none := by
  have hval : toyCylinderModel.slice.sliceParameterRange.lastIncludedStepIdx
      (1 / 2) = 0 := by
    norm_num [toyCylinderModel, toySlice, ConstStepRange.construct,
      ConstStepRange.lastIncludedStepIdx]
  have hinc : toyCylinderModel.slice.sliceParameterRange.includes (1 / 2) := by
    norm_num [toyCylinderModel, toySlice, ConstStepRange.construct,
      ConstStepRange.includes]
  have hcnt : toyCylinderModel.calculatedSliceCount = 2 := rfl
  have hfull := setSecantAngle_in_range toyCylinderModel toyCylinderState (1 / 2)
    hinc (by rw [hval]) (by rw [hval, hcnt]; norm_num)
    (by rw [hval, hcnt]; norm_num)
  constructor
  · rw [hfull]
    exact setSliceParameter_sliceParameter _ _ _ _
  · rw [setSecantAngle_repeat toyCylinderModel toyCylinderState 0 1 1 rfl
      (by norm_num) le_rfl rfl (1 / 2) (by norm_num) (by norm_num)]
    intro h
    have := congrArg SetterEffects.drawRangeSets h
    simp [SetterEffects.none] at this

/-- C7 amended: only the cone's sweep setter short-circuits on the identical
stored value (full no-op, no recomputation).  The cylinder and torus setters
keep every observable field unchanged when re-invoked with the same in-range
value and skip the connecting-slice buffer recomputation, but they do
recompute and re-set both draw ranges rather than returning early. -/
theorem solid_setters_identical_value (mco : ConeModel) (sco : ArchytasConeState)
    (mcy mto : CylinderModel) (scy sto : ArchytasCylinderState)
    (a1 b1 a2 b2 : ℝ) (n1 n2 : ℕ)
    (hr1 : mcy.slice.sliceParameterRange = ConstStepRange.construct a1 b1 n1)
    (hab1 : a1 < b1) (hn1 : 1 ≤ n1)
    (hcnt1 : mcy.slice.sliceParameterRange.stepCount = n1)
    (hr2 : mto.slice.sliceParameterRange = ConstStepRange.construct a2 b2 n2)
    (hab2 : a2 < b2) (hn2 : 1 ≤ n2)
    (hcnt2 : mto.slice.sliceParameterRange.stepCount = n2)
    (v w : ℝ) (hva : a1 ≤ v) (hvb : v ≤ b1) (hwa : a2 ≤ w) (hwb : w ≤ b2) :
    sco.setOapAngleCompliment mco sco.oapAngleCompliment =
      (sco, SetterEffects.none) ∧
    (scy.setSecantAngle mcy v).1.setSecantAngle mcy v =
      ((scy.setSecantAngle mcy v).1, ⟨2, false, false⟩) ∧
    (sto.setToroidalAngle mto w).1.setToroidalAngle mto w =
      ((sto.setToroidalAngle mto w).1, ⟨2, false, false⟩) := by
  refine ⟨?_, ?_, ?_⟩
  · rw [ArchytasConeState.setOapAngleCompliment, if_pos rfl]
  · exact setSecantAngle_repeat mcy scy a1 b1 n1 hr1 hab1 hn1 hcnt1 v hva hvb
  · rw [setToroidalAngle_eq_setSecantAngle, setToroidalAngle_eq_setSecantAngle]
    exact setSecantAngle_repeat mto sto a2 b2 n2 hr2 hab2 hn2 hcnt2 w hwa hwb

/-- Witness for `solid_setters_identical_value` on the sample solids with
the range `[0, 1]` and values `1/2` and `1/3`. -/
theorem solid_setters_identical_value_witness :
    toyConeState.setOapAngleCompliment toyConeModel
        toyConeState.oapAngleCompliment = (toyConeState, SetterEffects.none) ∧
    (toyCylinderState.setSecantAngle toyCylinderModel (1 / 2)).1.setSecantAngle
        toyCylinderModel (1 / 2) =
      ((toyCylinderState.setSecantAngle toyCylinderModel (1 / 2)).1,
        ⟨2, false, false⟩) ∧
    (toyCylinderState.setToroidalAngle toyCylinderModel (1 / 3)).1.setToroidalAngle
        toyCylinderModel (1 / 3) =
      ((toyCylinderState.setToroidalAngle toyCylinderModel (1 / 3)).1,
        ⟨2, false, false⟩) :=
  solid_setters_identical_value toyConeModel toyConeState toyCylinderModel
    toyCylinderModel toyCylinderState toyCylinderState 0 1 0 1 1 1 rfl
    (by norm_num) le_rfl rfl rfl (by norm_num) le_rfl rfl (1 / 2) (1 / 3)
    (by norm_num) (by norm_num) (by norm_num) (by norm_num)

/-! ## Conic-pipeline residuals (claims C1 and C8) -/

open EllipticalArcConfigCalculator EllipticalArcVertexCalculator



theorem Mat3.mul_mulVec (a b : Mat3) (w : Vec3) :
    (a.mul b).mulVec w = a.mulVec (b.mulVec w) := by
  simp only [Mat3.mul, Mat3.mulVec, Vec3.mk.injEq]
  refine ⟨by ring, by ring, by ring⟩

theorem Mat3.mulVec_dot (a : Mat3) (x y : Vec3) :
    (a.mulVec x).vectorDot y = x.vectorDot (a.transposed.mulVec y) := by
  simp only [Mat3.mulVec, Mat3.transposed, Vec3.vectorDot]
  ring

theorem ellipseBasis_transposed_mulVec (p : EllipticalArcParameters) (w : Vec3) :
    (ellipseBasis p).transposed.mulVec w = toEllipseFrame p w := by
  simp only [ellipseBasis, Mat3.setFromColumnVectors, Mat3.transposed,
    Mat3.mulVec, toEllipseFrame, Vec3.vectorDot, Vec3.mk.injEq]
  refine ⟨by ring, by ring, by ring⟩

set_option maxHeartbeats 1000000 in
/-- Frame-transfer identity: the world-frame cone residual is the
ellipse-frame residual of the ellipse-frame coordinates. -/
theorem worldConicResidual_eq_bar (p : EllipticalArcParameters)
    (c : ProjectionPlaneCamera) (w : Vec3) :
    worldConicResidual p c w =
      barConicResidual p c ((toEllipseFrame p w).subtract (ellipseCenter_c p)) := by
  rw [worldConicResidual, conicEqA_s, conicEqB_s, Mat3.mul_mulVec, Mat3.mul_mulVec,
    Mat3.mulVec_dot, Mat3.mulVec_dot (ellipseBasis p), ellipseBasis_transposed_mulVec]
  rw [conicEqC_s, barConicResidual]
  simp only [conicEqA_c, conicEqB_c, conicEqC_c, ellipseCenter_c, Mat3.mulVec,
    Vec3.vectorDot, Vec3.add, Vec3.subtract, Vec3.multiplyScalar, toEllipseFrame]
  ring




theorem Vec3.dot_comm (a b : Vec3) : a.vectorDot b = b.vectorDot a := by
  simp only [Vec3.vectorDot]; ring

theorem Vec3.dot_add_right (u a b : Vec3) :
    u.vectorDot (a.add b) = u.vectorDot a + u.vectorDot b := by
  simp only [Vec3.vectorDot, Vec3.add]; ring

theorem Vec3.dot_smul_right (u a : Vec3) (s : ℝ) :
    u.vectorDot (a.multiplyScalar s) = s * u.vectorDot a := by
  simp only [Vec3.vectorDot, Vec3.multiplyScalar]; ring

theorem Vec3.dot_matvec (u : Vec3) (m : Mat3) (z : Vec3) :
    u.vectorDot (m.mulVec z) = (m.transposed.mulVec u).vectorDot z := by
  simp only [Vec3.vectorDot, Mat3.mulVec, Mat3.transposed]; ring

theorem dot_conicEqA_s (p : EllipticalArcParameters) (c : ProjectionPlaneCamera)
    (u v : Vec3) :
    u.vectorDot ((conicEqA_s p c).mulVec v) =
      (toEllipseFrame p u).vectorDot
        ((conicEqA_c p c).mulVec (toEllipseFrame p v)) := by
  rw [conicEqA_s, Mat3.mul_mulVec, Mat3.mul_mulVec, Vec3.dot_matvec,
    ellipseBasis_transposed_mulVec, ellipseBasis_transposed_mulVec]

theorem dot_conicEqB_s (p : EllipticalArcParameters) (c : ProjectionPlaneCamera)
    (u : Vec3) :
    (conicEqB_s p c).vectorDot u =
      ((((conicEqA_c p c).mulVec (ellipseCenter_c p)).multiplyScalar (-2)).add
        (conicEqB_c p c)).vectorDot (toEllipseFrame p u) := by
  rw [conicEqB_s, Vec3.dot_comm, Vec3.dot_matvec, ellipseBasis_transposed_mulVec,
    Vec3.dot_comm]

theorem conicEqA_p_bar (p : EllipticalArcParameters) (c : ProjectionPlaneCamera) :
    conicEqA_p p c =
      ⟨(toEllipseFrame p c.xHat).vectorDot
          ((conicEqA_c p c).mulVec (toEllipseFrame p c.xHat)),
        (toEllipseFrame p c.xHat).vectorDot
          ((conicEqA_c p c).mulVec (toEllipseFrame p c.yHat)),
        (toEllipseFrame p c.yHat).vectorDot
          ((conicEqA_c p c).mulVec (toEllipseFrame p c.xHat)),
        (toEllipseFrame p c.yHat).vectorDot
          ((conicEqA_c p c).mulVec (toEllipseFrame p c.yHat))⟩ := by
  rw [conicEqA_p, Mat2.mk.injEq]
  exact ⟨dot_conicEqA_s p c _ _, dot_conicEqA_s p c _ _,
    dot_conicEqA_s p c _ _, dot_conicEqA_s p c _ _⟩

theorem conicEqB_p_bar (p : EllipticalArcParameters) (c : ProjectionPlaneCamera) :
    conicEqB_p p c =
      ⟨2 * ((toEllipseFrame p c.xHat).vectorDot ((conicEqA_c p c).mulVec
          (toEllipseFrame p c.getProjectionPlaneCenter))) +
        ((((conicEqA_c p c).mulVec (ellipseCenter_c p)).multiplyScalar (-2)).add
          (conicEqB_c p c)).vectorDot (toEllipseFrame p c.xHat),
       2 * ((toEllipseFrame p c.yHat).vectorDot ((conicEqA_c p c).mulVec
          (toEllipseFrame p c.getProjectionPlaneCenter))) +
        ((((conicEqA_c p c).mulVec (ellipseCenter_c p)).multiplyScalar (-2)).add
          (conicEqB_c p c)).vectorDot (toEllipseFrame p c.yHat)⟩ := by
  rw [conicEqB_p, Vec2.mk.injEq]
  constructor
  · rw [Vec3.dot_add_right, Vec3.dot_smul_right, dot_conicEqA_s,
      Vec3.dot_comm c.xHat (conicEqB_s p c), dot_conicEqB_s]
  · rw [Vec3.dot_add_right, Vec3.dot_smul_right, dot_conicEqA_s,
      Vec3.dot_comm c.yHat (conicEqB_s p c), dot_conicEqB_s]

theorem conicEqC_p_bar (p : EllipticalArcParameters) (c : ProjectionPlaneCamera) :
    conicEqC_p p c =
      (toEllipseFrame p c.getProjectionPlaneCenter).vectorDot
          ((conicEqA_c p c).mulVec (toEllipseFrame p c.getProjectionPlaneCenter)) +
        ((((conicEqA_c p c).mulVec (ellipseCenter_c p)).multiplyScalar (-2)).add
          (conicEqB_c p c)).vectorDot
            (toEllipseFrame p c.getProjectionPlaneCenter) +
        conicEqC_s p c := by
  rw [conicEqC_p, Vec3.dot_comm ((conicEqA_s p c).mulVec _) _, dot_conicEqA_s,
    dot_conicEqB_s]

set_option maxHeartbeats 1000000 in
theorem planeConicResidual_eq_world (p : EllipticalArcParameters)
    (c : ProjectionPlaneCamera) (Y : Vec2) :
    planeConicResidual p c Y =
      worldConicResidual p c ((c.getProjectionPlaneCenter).add
        ((c.xHat.multiplyScalar Y.x).add (c.yHat.multiplyScalar Y.y))) := by
  rw [planeConicResidual, conicEqA_p_bar, conicEqB_p_bar, conicEqC_p_bar,
    worldConicResidual_eq_bar]
  have hlin : (toEllipseFrame p ((c.getProjectionPlaneCenter).add
      ((c.xHat.multiplyScalar Y.x).add (c.yHat.multiplyScalar Y.y)))).subtract
        (ellipseCenter_c p) =
      ((toEllipseFrame p c.getProjectionPlaneCenter).subtract
        (ellipseCenter_c p)).add
        (((toEllipseFrame p c.xHat).multiplyScalar Y.x).add
          ((toEllipseFrame p c.yHat).multiplyScalar Y.y)) := by
    simp only [toEllipseFrame, Vec3.add, Vec3.multiplyScalar, Vec3.subtract,
      Vec3.vectorDot, Vec3.mk.injEq]
    refine ⟨by ring, by ring, by ring⟩
  rw [hlin]
  simp only [barConicResidual, conicEqA_c, conicEqB_c, conicEqC_c, conicEqC_s,
    Mat2.mulVec, Vec2.vectorDot, Mat3.mulVec, Vec3.vectorDot, Vec3.add,
    Vec3.multiplyScalar, Vec3.subtract]
  ring




theorem toEllipseFrame_vertex (p : EllipticalArcParameters) (t : ℝ)
    (hxx : p.plane.xHat.vectorDot p.plane.xHat = 1)
    (hyy : p.plane.yHat.vectorDot p.plane.yHat = 1)
    (hxy : p.plane.xHat.vectorDot p.plane.yHat = 0) :
    (toEllipseFrame p (calculateVertex p t)).subtract (ellipseCenter_c p) =
      ⟨p.semiXAxis * Real.cos t, p.semiYAxis * Real.sin t, 0⟩ := by
  simp only [Vec3.vectorDot] at hxx hyy hxy
  simp only [toEllipseFrame, calculateVertex, ellipseCenter_c,
    PlaneDirections.zHat, Vec3.vectorCross, Vec3.addScaled, Vec3.multiplyScalar,
    Vec3.vectorDot, Vec3.subtract, Vec3.mk.injEq]
  refine ⟨?_, ?_, ?_⟩
  · linear_combination (p.semiXAxis * Real.cos t) * hxx +
      (p.semiYAxis * Real.sin t) * hxy
  · linear_combination (p.semiYAxis * Real.sin t) * hyy +
      (p.semiXAxis * Real.cos t) * hxy
  · ring

theorem barConicResidual_on_ellipse (p : EllipticalArcParameters)
    (c : ProjectionPlaneCamera) (t : ℝ) (ha : p.semiXAxis ≠ 0)
    (hb : p.semiYAxis ≠ 0) :
    barConicResidual p c
      ⟨p.semiXAxis * Real.cos t, p.semiYAxis * Real.sin t, 0⟩ = 0 := by
  simp only [barConicResidual, conicEqA_c, conicEqB_c, conicEqC_c, Mat3.mulVec,
    Vec3.vectorDot]
  field_simp
  linear_combination (p.semiXAxis ^ 2 * p.semiYAxis ^ 2) *
    Real.sin_sq_add_cos_sq t

theorem bar_apex_shift (p : EllipticalArcParameters) (c : ProjectionPlaneCamera)
    (y : Vec3) (ha : p.semiXAxis ≠ 0) (hb : p.semiYAxis ≠ 0)
    (hez : (ellipticalConeVertex_c p c).z ≠ 0) :
    barConicResidual p c ((ellipticalConeVertex_c p c).add y) =
      ((conicEqA_c p c).mulVec y).vectorDot y := by
  simp only [barConicResidual, conicEqA_c, conicEqB_c, conicEqC_c, Mat3.mulVec,
    Vec3.vectorDot, Vec3.add]
  field_simp
  ring

theorem quadForm_smul (p : EllipticalArcParameters) (c : ProjectionPlaneCamera)
    (y : Vec3) (s : ℝ) :
    ((conicEqA_c p c).mulVec (y.multiplyScalar s)).vectorDot
      (y.multiplyScalar s) =
      s ^ 2 * (((conicEqA_c p c).mulVec y).vectorDot y) := by
  simp only [conicEqA_c, Mat3.mulVec, Vec3.multiplyScalar, Vec3.vectorDot]
  ring

theorem worldConicResidual_on_line (p : EllipticalArcParameters)
    (c : ProjectionPlaneCamera) (X : Vec3) (s : ℝ) (ha : p.semiXAxis ≠ 0)
    (hb : p.semiYAxis ≠ 0) (hez : (ellipticalConeVertex_c p c).z ≠ 0) :
    worldConicResidual p c
        (c.worldPosition.add ((X.subtract c.worldPosition).multiplyScalar s)) =
      s ^ 2 * worldConicResidual p c X := by
  rw [worldConicResidual_eq_bar, worldConicResidual_eq_bar]
  have harg : (toEllipseFrame p
      (c.worldPosition.add ((X.subtract c.worldPosition).multiplyScalar s))).subtract
        (ellipseCenter_c p) =
      (ellipticalConeVertex_c p c).add
        ((((toEllipseFrame p X).subtract (ellipseCenter_c p)).subtract
          (ellipticalConeVertex_c p c)).multiplyScalar s) := by
    simp only [toEllipseFrame, ellipseCenter_c, ellipticalConeVertex_c,
      Vec3.add, Vec3.subtract, Vec3.multiplyScalar, Vec3.vectorDot,
      Vec3.mk.injEq]
    refine ⟨by ring, by ring, by ring⟩
  have harg2 : (toEllipseFrame p X).subtract (ellipseCenter_c p) =
      (ellipticalConeVertex_c p c).add
        (((toEllipseFrame p X).subtract (ellipseCenter_c p)).subtract
          (ellipticalConeVertex_c p c)) := by
    simp only [Vec3.add, Vec3.subtract, Vec3.mk.injEq]
    refine ⟨by ring, by ring, by ring⟩
  rw [harg, bar_apex_shift p c _ ha hb hez, quadForm_smul]
  conv_rhs => rw [harg2]
  rw [bar_apex_shift p c _ ha hb hez]




/-- Completeness of an orthonormal pair extended by its cross product: every
vector is the sum of its projections on `u`, `v` and `u x v`. -/
theorem orthonormal_complete (u v w : Vec3) (huu : u.vectorDot u = 1)
    (hvv : v.vectorDot v = 1) (huv : u.vectorDot v = 0) :
    ((u.multiplyScalar (w.vectorDot u)).add
      (v.multiplyScalar (w.vectorDot v))).add
      ((u.vectorCross v).multiplyScalar (w.vectorDot (u.vectorCross v))) = w := by
  simp only [Vec3.vectorDot] at huu hvv huv
  obtain ⟨ux, uy, uz⟩ := u
  obtain ⟨vx, vy, vz⟩ := v
  obtain ⟨wx, wy, wz⟩ := w
  simp only [Vec3.vectorCross, Vec3.multiplyScalar, Vec3.add, Vec3.vectorDot,
    Vec3.mk.injEq]
  refine ⟨?_, ?_, ?_⟩
  · linear_combination (wx * (vx * vx + vy * vy + vz * vz) -
        (wx * vx + wy * vy + wz * vz) * vx) * huu +
      (wx - (wx * ux + wy * uy + wz * uz) * ux) * hvv +
      ((wx * ux + wy * uy + wz * uz) * vx +
        (wx * vx + wy * vy + wz * vz) * ux -
        wx * (ux * vx + uy * vy + uz * vz)) * huv
  · linear_combination (wy * (vx * vx + vy * vy + vz * vz) -
        (wx * vx + wy * vy + wz * vz) * vy) * huu +
      (wy - (wx * ux + wy * uy + wz * uz) * uy) * hvv +
      ((wx * ux + wy * uy + wz * uz) * vy +
        (wx * vx + wy * vy + wz * vz) * uy -
        wy * (ux * vx + uy * vy + uz * vz)) * huv
  · linear_combination (wz * (vx * vx + vy * vy + vz * vz) -
        (wx * vx + wy * vy + wz * vz) * vz) * huu +
      (wz - (wx * ux + wy * uy + wz * uz) * uz) * hvv +
      ((wx * ux + wy * uy + wz * uz) * vz +
        (wx * vx + wy * vy + wz * vz) * uz -
        wz * (ux * vx + uy * vy + uz * vz)) * huv




theorem Vec3.dot_addScaled_left (a b : Vec3) (s : ℝ) (w : Vec3) :
    (a.addScaled b s).vectorDot w = a.vectorDot w + s * b.vectorDot w := by
  simp only [Vec3.vectorDot, Vec3.addScaled]; ring

theorem Vec3.dot_smul_left (a : Vec3) (s : ℝ) (w : Vec3) :
    (a.multiplyScalar s).vectorDot w = s * a.vectorDot w := by
  simp only [Vec3.vectorDot, Vec3.multiplyScalar]; ring

theorem cross_self_dot_one (u v : Vec3) (huu : u.vectorDot u = 1)
    (hvv : v.vectorDot v = 1) (huv : u.vectorDot v = 0) :
    (u.vectorCross v).vectorDot (u.vectorCross v) = 1 := by
  simp only [Vec3.vectorDot, Vec3.vectorCross] at huu hvv huv ⊢
  linear_combination (v.x * v.x + v.y * v.y + v.z * v.z) * huu + hvv +
    (-(u.x * v.x + u.y * v.y + u.z * v.z)) * huv

/-- The world point of a perspective projection (`plane center + x * xHat +
y * yHat`) is the intersection of the eye-to-point line with the projection
plane. -/
theorem projected_point_on_eye_line (c : ProjectionPlaneCamera) (X : Vec3)
    (hcx : c.xHat.vectorDot c.xHat = 1) (hcy : c.yHat.vectorDot c.yHat = 1)
    (hcxy : c.xHat.vectorDot c.yHat = 0)
    (hcz : c.zHat = c.xHat.vectorCross c.yHat ∨
      c.zHat = (c.xHat.vectorCross c.yHat).multiplyScalar (-1))
    (hd : (X.subtract c.worldPosition).vectorDot c.zHat ≠ 0) :
    (c.getProjectionPlaneCenter).add
      ((c.xHat.multiplyScalar ((c.project X).x)).add
        (c.yHat.multiplyScalar ((c.project X).y))) =
      c.worldPosition.add ((X.subtract c.worldPosition).multiplyScalar
        (c.focalDistance / (-((X.subtract c.worldPosition).vectorDot c.zHat)))) := by
  have hzz : c.zHat.vectorDot c.zHat = 1 := by
    rcases hcz with h | h
    · rw [h]; exact cross_self_dot_one _ _ hcx hcy hcxy
    · rw [h]
      have hnn := cross_self_dot_one _ _ hcx hcy hcxy
      simp only [Vec3.vectorDot, Vec3.multiplyScalar] at hnn ⊢
      linear_combination hnn
  have hpx : (c.project X).x =
      (((X.subtract c.worldPosition).multiplyScalar
        (c.focalDistance / (-((X.subtract c.worldPosition).vectorDot c.zHat)))).addScaled
          c.zHat c.focalDistance).vectorDot c.xHat := rfl
  have hpy : (c.project X).y =
      (((X.subtract c.worldPosition).multiplyScalar
        (c.focalDistance / (-((X.subtract c.worldPosition).vectorDot c.zHat)))).addScaled
          c.zHat c.focalDistance).vectorDot c.yHat := rfl
  have hqz : (((X.subtract c.worldPosition).multiplyScalar
      (c.focalDistance / (-((X.subtract c.worldPosition).vectorDot c.zHat)))).addScaled
        c.zHat c.focalDistance).vectorDot c.zHat = 0 := by
    rw [Vec3.dot_addScaled_left, Vec3.dot_smul_left, hzz, div_neg, neg_mul,
      div_mul_cancel₀ _ hd]
    ring
  have hqn : (((X.subtract c.worldPosition).multiplyScalar
      (c.focalDistance / (-((X.subtract c.worldPosition).vectorDot c.zHat)))).addScaled
        c.zHat c.focalDistance).vectorDot (c.xHat.vectorCross c.yHat) = 0 := by
    rcases hcz with h | h
    · rw [← h]; exact hqz
    · nth_rewrite 3 [h] at hqz
      rw [Vec3.dot_smul_right] at hqz
      linarith [hqz]
  have hcomp := orthonormal_complete c.xHat c.yHat
    (((X.subtract c.worldPosition).multiplyScalar
      (c.focalDistance / (-((X.subtract c.worldPosition).vectorDot c.zHat)))).addScaled
        c.zHat c.focalDistance) hcx hcy hcxy
  rw [hqn] at hcomp
  have hx := congrArg Vec3.x hcomp
  have hy := congrArg Vec3.y hcomp
  have hz := congrArg Vec3.z hcomp
  rw [hpx, hpy]
  simp only [ProjectionPlaneCamera.getProjectionPlaneCenter, Vec3.addScaled,
    Vec3.add, Vec3.multiplyScalar, Vec3.subtract, Vec3.vectorDot,
    Vec3.vectorCross] at hx hy hz ⊢
  rw [Vec3.mk.injEq]
  refine ⟨?_, ?_, ?_⟩
  · linear_combination hx
  · linear_combination hy
  · linear_combination hz




/-- C1: for every arc with both semi-axes of magnitude at least `eps`
(orthonormal plane basis), and every orthonormal perspective camera whose eye
point is at ellipse-frame height at least `eps` over the ellipse plane, the
cone classification is `Finite`, every ellipse point (at any circular angle
`t`, with the eye line not parallel to the projection plane) has world-frame
conic residual `0`, and its camera projection has projection-plane conic
residual `0`. -/
theorem coneAndProjectionConicResiduals_vanish (p : EllipticalArcParameters) (c : ProjectionPlaneCamera)
    (eps t : ℝ) (heps : 0 < eps)
    (hxx : p.plane.xHat.vectorDot p.plane.xHat = 1)
    (hyy : p.plane.yHat.vectorDot p.plane.yHat = 1)
    (hxy : p.plane.xHat.vectorDot p.plane.yHat = 0)
    (ha : eps ≤ |p.semiXAxis|) (hb : eps ≤ |p.semiYAxis|)
    (hez : eps ≤ |(ellipticalConeVertex_c p c).z|)
    (hcx : c.xHat.vectorDot c.xHat = 1) (hcy : c.yHat.vectorDot c.yHat = 1)
    (hcxy : c.xHat.vectorDot c.yHat = 0)
    (hcz : c.zHat = c.xHat.vectorCross c.yHat ∨
      c.zHat = (c.xHat.vectorCross c.yHat).multiplyScalar (-1))
    (hd : ((calculateVertex p t).subtract c.worldPosition).vectorDot c.zHat ≠ 0) :
    calcSkewedConeInInputEllipseFrame p c eps =
      SkewedEllipticalConeResult.Finite ∧
    worldConicResidual p c (calculateVertex p t) = 0 ∧
    planeConicResidual p c ⟨(c.project (calculateVertex p t)).x,
      (c.project (calculateVertex p t)).y⟩ = 0 := by
  have ha' : p.semiXAxis ≠ 0 := abs_pos.mp (lt_of_lt_of_le heps ha)
  have hb' : p.semiYAxis ≠ 0 := abs_pos.mp (lt_of_lt_of_le heps hb)
  have hez' : (ellipticalConeVertex_c p c).z ≠ 0 :=
    abs_pos.mp (lt_of_lt_of_le heps hez)
  have hworld : worldConicResidual p c (calculateVertex p t) = 0 := by
    rw [worldConicResidual_eq_bar, toEllipseFrame_vertex p t hxx hyy hxy,
      barConicResidual_on_ellipse p c t ha' hb']
  refine ⟨?_, hworld, ?_⟩
  · rw [calcSkewedConeInInputEllipseFrame, if_neg, if_neg]
    · exact not_lt.mpr hez
    · simp only [not_or, not_lt]
      exact ⟨ha, hb⟩
  · rw [planeConicResidual_eq_world]
    dsimp only
    rw [projected_point_on_eye_line c _ hcx hcy hcxy hcz hd,
      worldConicResidual_on_line p c _ _ ha' hb' hez', hworld, mul_zero]




theorem Vec3.dot_add_left (a b w : Vec3) :
    (a.add b).vectorDot w = a.vectorDot w + b.vectorDot w := by
  simp only [Vec3.vectorDot, Vec3.add]; ring

/-- Parseval-style expansion of a dot product over an orthonormal pair and
its cross product. -/
theorem dot_expand (u v w w' : Vec3) (huu : u.vectorDot u = 1)
    (hvv : v.vectorDot v = 1) (huv : u.vectorDot v = 0) :
    w.vectorDot w' =
      w.vectorDot u * u.vectorDot w' + w.vectorDot v * v.vectorDot w' +
        w.vectorDot (u.vectorCross v) * (u.vectorCross v).vectorDot w' := by
  conv_lhs => rw [← orthonormal_complete u v w huu hvv huv]
  rw [Vec3.dot_add_left, Vec3.dot_add_left, Vec3.dot_smul_left,
    Vec3.dot_smul_left, Vec3.dot_smul_left]

section C8

variable (p : EllipticalArcParameters) (c : ProjectionPlaneCamera) (h σ : ℝ)

/-- Eye point on the circle axis: the cone vertex in the ellipse frame is
`(0, 0, h)`. -/
theorem coneVertex_on_axis
    (hxx : p.plane.xHat.vectorDot p.plane.xHat = 1)
    (hyy : p.plane.yHat.vectorDot p.plane.yHat = 1)
    (hxy : p.plane.xHat.vectorDot p.plane.yHat = 0)
    (hE : c.worldPosition = p.origin.add ((p.plane.zHat).multiplyScalar h)) :
    ellipticalConeVertex_c p c = ⟨0, 0, h⟩ := by
  have hz := cross_self_dot_one _ _ hxx hyy hxy
  simp only [Vec3.vectorDot, Vec3.vectorCross] at hz
  rw [ellipticalConeVertex_c, hE]
  simp only [PlaneDirections.zHat, Vec3.vectorCross, Vec3.add,
    Vec3.multiplyScalar, Vec3.subtract, Vec3.vectorDot, Vec3.mk.injEq]
  refine ⟨by ring, by ring, ?_⟩
  linear_combination h * hz

theorem conicEqA_c_on_axis (hh : h ≠ 0)
    (hab : p.semiXAxis = p.semiYAxis)
    (hEvec : ellipticalConeVertex_c p c = ⟨0, 0, h⟩) :
    conicEqA_c p c =
      ⟨1 / (p.semiXAxis * p.semiXAxis), 0, 0,
       0, 1 / (p.semiXAxis * p.semiXAxis), 0,
       0, 0, -(1 / (h * h))⟩ := by
  rw [conicEqA_c, hEvec, ← hab]
  simp only [Mat3.mk.injEq]
  norm_num
  rw [neg_div, one_div, mul_inv]

/-- The ellipse-frame linear coefficient when the eye point is on the
axis. -/
theorem conicEqB_c_on_axis
    (hEvec : ellipticalConeVertex_c p c = ⟨0, 0, h⟩) :
    conicEqB_c p c = ⟨0, 0, 2 / h⟩ := by
  rw [conicEqB_c, hEvec]

/-- Ellipse-frame coordinates of the projection-plane center for an on-axis
camera looking along the plane normal. -/
theorem projectionPlaneCenter_frame (σ : ℝ)
    (hxx : p.plane.xHat.vectorDot p.plane.xHat = 1)
    (hyy : p.plane.yHat.vectorDot p.plane.yHat = 1)
    (hxy : p.plane.xHat.vectorDot p.plane.yHat = 0)
    (hE : c.worldPosition = p.origin.add ((p.plane.zHat).multiplyScalar h))
    (hσ : c.zHat = (p.plane.zHat).multiplyScalar σ) :
    toEllipseFrame p c.getProjectionPlaneCenter =
      ⟨(ellipseCenter_c p).x, (ellipseCenter_c p).y,
       (ellipseCenter_c p).z + (h - c.focalDistance * σ)⟩ := by
  have hz := cross_self_dot_one _ _ hxx hyy hxy
  simp only [Vec3.vectorDot, Vec3.vectorCross] at hz
  rw [ProjectionPlaneCamera.getProjectionPlaneCenter, hE, hσ]
  simp only [toEllipseFrame, ellipseCenter_c, PlaneDirections.zHat,
    Vec3.vectorCross, Vec3.add, Vec3.addScaled, Vec3.multiplyScalar,
    Vec3.vectorDot, Vec3.mk.injEq]
  refine ⟨by ring, by ring, ?_⟩
  linear_combination (h - c.focalDistance * σ) * hz

/-- Scalar 2x2 matrices have a double eigenvalue, reported twice. -/
theorem getEigenvalues_scalar (q : ℝ) :
    (Mat2.mk q 0 0 q).getEigenvalues = (q, q) := by
  rw [Mat2.getEigenvalues]
  dsimp only
  have h0 : (-q - q) * (-q - q) - 4 * (q * q - 0 * 0) = 0 := by ring
  rw [h0, Real.sqrt_zero, Prod.mk.injEq]
  constructor <;> ring

/-- For a scalar 2x2 matrix both eigenvector candidates vanish, so the
selected eigenvector is the zero vector. -/
theorem getEigenvector_scalar (q : ℝ) :
    (Mat2.mk q 0 0 q).getEigenvectorForEigenvalue q = ⟨0, 0⟩ := by
  rw [Mat2.getEigenvectorForEigenvalue]
  dsimp only
  have hcond : ¬ (max |(-(0:ℝ))| |q - q| > max |q - q| |(-(0:ℝ))|) := by
    rw [sub_self, neg_zero]
    exact lt_irrefl _
  rw [if_neg hcond, sub_self, neg_zero]

/-- Angle-range projection does not touch the semi-axis fields. -/
theorem projectCircularAngle_semiXAxis (o : EllipticalArcParameters) :
    (projectCircularAngle p c o).semiXAxis = o.semiXAxis := rfl

theorem projectCircularAngle_semiYAxis (o : EllipticalArcParameters) :
    (projectCircularAngle p c o).semiYAxis = o.semiYAxis := rfl

end C8

section C8main

variable (p : EllipticalArcParameters) (c : ProjectionPlaneCamera)

/-- C8: for every circular input arc (equal semi-axes of magnitude at least
`eps`, orthonormal plane basis) and every orthonormal perspective camera
whose eye point sits on the circle axis at height `h` with `eps <= |h|` and
whose view direction is along the plane normal (`zHat = +-normal`),
`projectToCamera` returns a result whose semi-axes are equal: the projection
remains a circle. -/
theorem onAxisCircle_projects_to_circle (out_prev : EllipticalArcParameters)
    (eps h σ : ℝ) (heps : 0 < eps)
    (hxx : p.plane.xHat.vectorDot p.plane.xHat = 1)
    (hyy : p.plane.yHat.vectorDot p.plane.yHat = 1)
    (hxy : p.plane.xHat.vectorDot p.plane.yHat = 0)
    (hab : p.semiXAxis = p.semiYAxis)
    (ha : eps ≤ |p.semiXAxis|)
    (hh : eps ≤ |h|)
    (hE : c.worldPosition = p.origin.add ((p.plane.zHat).multiplyScalar h))
    (hσ2 : σ * σ = 1)
    (hσ : c.zHat = (p.plane.zHat).multiplyScalar σ)
    (hcx : c.xHat.vectorDot c.xHat = 1)
    (hcy : c.yHat.vectorDot c.yHat = 1)
    (hcxy : c.xHat.vectorDot c.yHat = 0)
    (hcz : c.zHat = c.xHat.vectorCross c.yHat ∨
      c.zHat = (c.xHat.vectorCross c.yHat).multiplyScalar (-1)) :
    ∃ out, projectToCamera p c out_prev eps = some out ∧
      out.semiXAxis = out.semiYAxis := by
  have hh0 : h ≠ 0 := by
    intro h0
    rw [h0, abs_zero] at hh
    linarith
  have hEvec := coneVertex_on_axis p c h hxx hyy hxy hE
  have hσne : σ ≠ 0 := by
    intro h0
    rw [h0, mul_zero] at hσ2
    exact zero_ne_one hσ2
  -- camera basis vectors are orthogonal to the view direction
  have hxz0 : c.xHat.vectorDot c.zHat = 0 := by
    rcases hcz with h1 | h1 <;> rw [h1] <;>
      simp only [Vec3.vectorDot, Vec3.vectorCross, Vec3.multiplyScalar] <;> ring
  have hyz0 : c.yHat.vectorDot c.zHat = 0 := by
    rcases hcz with h1 | h1 <;> rw [h1] <;>
      simp only [Vec3.vectorDot, Vec3.vectorCross, Vec3.multiplyScalar] <;> ring
  have hu3 : (toEllipseFrame p c.xHat).z = 0 := by
    have h2 := hxz0
    rw [hσ, Vec3.dot_smul_right] at h2
    exact (mul_eq_zero.mp h2).resolve_left hσne
  have hv3 : (toEllipseFrame p c.yHat).z = 0 := by
    have h2 := hyz0
    rw [hσ, Vec3.dot_smul_right] at h2
    exact (mul_eq_zero.mp h2).resolve_left hσne
  have hsumuu : (toEllipseFrame p c.xHat).x * (toEllipseFrame p c.xHat).x +
      (toEllipseFrame p c.xHat).y * (toEllipseFrame p c.xHat).y = 1 := by
    have hexp := dot_expand p.plane.xHat p.plane.yHat c.xHat c.xHat hxx hyy hxy
    rw [hcx, Vec3.dot_comm p.plane.xHat c.xHat, Vec3.dot_comm p.plane.yHat c.xHat,
      Vec3.dot_comm (p.plane.xHat.vectorCross p.plane.yHat) c.xHat] at hexp
    have hz0 : c.xHat.vectorDot (p.plane.xHat.vectorCross p.plane.yHat) = 0 := hu3
    rw [hz0, mul_zero, add_zero] at hexp
    exact hexp.symm
  have hsumvv : (toEllipseFrame p c.yHat).x * (toEllipseFrame p c.yHat).x +
      (toEllipseFrame p c.yHat).y * (toEllipseFrame p c.yHat).y = 1 := by
    have hexp := dot_expand p.plane.xHat p.plane.yHat c.yHat c.yHat hxx hyy hxy
    rw [hcy, Vec3.dot_comm p.plane.xHat c.yHat, Vec3.dot_comm p.plane.yHat c.yHat,
      Vec3.dot_comm (p.plane.xHat.vectorCross p.plane.yHat) c.yHat] at hexp
    have hz0 : c.yHat.vectorDot (p.plane.xHat.vectorCross p.plane.yHat) = 0 := hv3
    rw [hz0, mul_zero, add_zero] at hexp
    exact hexp.symm
  have hsumuv : (toEllipseFrame p c.xHat).x * (toEllipseFrame p c.yHat).x +
      (toEllipseFrame p c.xHat).y * (toEllipseFrame p c.yHat).y = 0 := by
    have hexp := dot_expand p.plane.xHat p.plane.yHat c.xHat c.yHat hxx hyy hxy
    rw [hcxy, Vec3.dot_comm p.plane.xHat c.yHat, Vec3.dot_comm p.plane.yHat c.yHat,
      Vec3.dot_comm (p.plane.xHat.vectorCross p.plane.yHat) c.yHat] at hexp
    have hz0 : c.xHat.vectorDot (p.plane.xHat.vectorCross p.plane.yHat) = 0 := hu3
    rw [hz0, zero_mul, add_zero] at hexp
    exact hexp.symm
  have hAc := conicEqA_c_on_axis p c h hh0 hab hEvec
  have hBc := conicEqB_c_on_axis p c h hEvec
  have hcpd := projectionPlaneCenter_frame p c h σ hxx hyy hxy hE hσ
  have hAp : conicEqA_p p c =
      ⟨1 / (p.semiXAxis * p.semiXAxis), 0, 0, 1 / (p.semiXAxis * p.semiXAxis)⟩ := by
    rw [conicEqA_p_bar, hAc, Mat2.mk.injEq]
    simp only [Mat3.mulVec, Vec3.vectorDot]
    refine ⟨?_, ?_, ?_, ?_⟩
    · rw [hu3]
      linear_combination (1 / (p.semiXAxis * p.semiXAxis)) * hsumuu
    · rw [hu3, hv3]
      linear_combination (1 / (p.semiXAxis * p.semiXAxis)) * hsumuv
    · rw [hu3, hv3]
      linear_combination (1 / (p.semiXAxis * p.semiXAxis)) * hsumuv
    · rw [hv3]
      linear_combination (1 / (p.semiXAxis * p.semiXAxis)) * hsumvv
  have hBp : conicEqB_p p c = ⟨0, 0⟩ := by
    rw [conicEqB_p_bar, hAc, hBc, hcpd, Vec2.mk.injEq]
    simp only [Mat3.mulVec, Vec3.vectorDot, Vec3.multiplyScalar, Vec3.add]
    constructor
    · rw [hu3]
      ring
    · rw [hv3]
      ring
  obtain ⟨q, hM⟩ : ∃ q, ellipseEqM_p p c = ⟨q, 0, 0, q⟩ := by
    refine ⟨(ellipseEqM_p p c).e00, ?_⟩
    rw [ellipseEqM_p, hAp, hBp]
    simp [Mat2.multiplyScalar]
  have hev : (ellipseEqM_p p c).getEigenvalues = (q, q) := by
    rw [hM, getEigenvalues_scalar]
  have hevec : (ellipseEqM_p p c).getEigenvectorForEigenvalue q = ⟨0, 0⟩ := by
    rw [hM, getEigenvector_scalar]
  have hFin : calcSkewedConeInInputEllipseFrame p c eps = .Finite := by
    rw [calcSkewedConeInInputEllipseFrame, if_neg, if_neg]
    · rw [hEvec]
      exact not_lt.mpr hh
    · rw [not_or, ← hab]
      exact ⟨not_lt.mpr ha, not_lt.mpr ha⟩
  have h00 : Vec2.vectorDot ⟨0, 0⟩ ⟨0, 0⟩ < eps := by
    simpa only [Vec2.vectorDot, mul_zero, add_zero] using heps
  have hproj : projectToCamera p c out_prev eps =
      some (projectCircularAngle p c
        { origin := ⟨(ellipseEqK_p p c).x, (ellipseEqK_p p c).y, 0⟩,
          plane := ⟨⟨c.xHat.x, c.xHat.y, 0⟩, ⟨c.yHat.x, c.yHat.y, 0⟩⟩,
          circularAngle := out_prev.circularAngle,
          semiXAxis := 1 / Real.sqrt q,
          semiYAxis := 1 / Real.sqrt q }) := by
    rw [projectToCamera, hFin, calcPerspectiveProjection]
    simp only [hev, hevec, if_pos h00]
    rfl
  refine ⟨_, hproj, ?_⟩
  rw [projectCircularAngle_semiXAxis, projectCircularAngle_semiYAxis]

end C8main


/-- Closed instance of the C1 residual theorem: the unit circle in the xy
plane viewed from `(0, 0, -2)` with the identity camera basis, `eps = 1`,
circular angle `0`. -/
theorem coneAndProjectionConicResiduals_vanish_witness :
    calcSkewedConeInInputEllipseFrame sampleUnitCircle sampleBehindCamera 1 =
      SkewedEllipticalConeResult.Finite ∧
    worldConicResidual sampleUnitCircle sampleBehindCamera
      (calculateVertex sampleUnitCircle 0) = 0 ∧
    planeConicResidual sampleUnitCircle sampleBehindCamera
      ⟨(sampleBehindCamera.project (calculateVertex sampleUnitCircle 0)).x,
       (sampleBehindCamera.project (calculateVertex sampleUnitCircle 0)).y⟩ =
      0 :=
  coneAndProjectionConicResiduals_vanish sampleUnitCircle sampleBehindCamera 1 0
    (by norm_num)
    (by norm_num [sampleUnitCircle, Vec3.vectorDot])
    (by norm_num [sampleUnitCircle, Vec3.vectorDot])
    (by norm_num [sampleUnitCircle, Vec3.vectorDot])
    (by norm_num [sampleUnitCircle])
    (by norm_num [sampleUnitCircle])
    (by norm_num [ellipticalConeVertex_c, sampleUnitCircle, sampleBehindCamera,
      PlaneDirections.zHat, Vec3.vectorCross, Vec3.subtract, Vec3.vectorDot,
      Vec3.zero])
    (by norm_num [sampleBehindCamera, Vec3.vectorDot])
    (by norm_num [sampleBehindCamera, Vec3.vectorDot])
    (by norm_num [sampleBehindCamera, Vec3.vectorDot])
    (Or.inl (by norm_num [sampleBehindCamera, Vec3.vectorCross, Vec3.mk.injEq]))
    (by norm_num [calculateVertex, sampleUnitCircle, sampleBehindCamera,
      Vec3.addScaled, Vec3.multiplyScalar, Vec3.subtract, Vec3.vectorDot,
      Vec3.zero, Real.cos_zero, Real.sin_zero])

/-- Closed instance of the C8 circle-projection theorem: the radius-`1/2`
circle in the xy plane viewed from `(0, 0, -2)` along the axis with the
identity camera basis, `eps = 1/2`. -/
theorem onAxisCircle_projects_to_circle_witness :
    ∃ out, projectToCamera sampleDegenerateArc sampleBehindCamera sampleOutArc
        (1 / 2) = some out ∧ out.semiXAxis = out.semiYAxis :=
  onAxisCircle_projects_to_circle sampleDegenerateArc sampleBehindCamera
    sampleOutArc (1 / 2) (-2) 1
    (by norm_num)
    (by norm_num [sampleDegenerateArc, Vec3.vectorDot])
    (by norm_num [sampleDegenerateArc, Vec3.vectorDot])
    (by norm_num [sampleDegenerateArc, Vec3.vectorDot])
    (by norm_num [sampleDegenerateArc])
    (le_abs_self _)
    (by norm_num)
    (by norm_num [sampleDegenerateArc, sampleBehindCamera, PlaneDirections.zHat,
      Vec3.vectorCross, Vec3.add, Vec3.multiplyScalar, Vec3.zero, Vec3.mk.injEq])
    (by norm_num)
    (by norm_num [sampleDegenerateArc, sampleBehindCamera, PlaneDirections.zHat,
      Vec3.vectorCross, Vec3.multiplyScalar, Vec3.mk.injEq])
    (by norm_num [sampleBehindCamera, Vec3.vectorDot])
    (by norm_num [sampleBehindCamera, Vec3.vectorDot])
    (by norm_num [sampleBehindCamera, Vec3.vectorDot])
    (Or.inl (by norm_num [sampleBehindCamera, Vec3.vectorCross, Vec3.mk.injEq]))

/-! ## Degenerate projection fallback (claim C5) -/

theorem proj_at_zero :
    sampleBehindCamera.project (calculateVertex sampleDegenerateArc 0) =
      ⟨-(1 / 4), 0, 0⟩ := by
  norm_num [ProjectionPlaneCamera.project, calculateVertex, sampleDegenerateArc,
    sampleBehindCamera, Vec3.subtract, Vec3.vectorDot, Vec3.addScaled,
    Vec3.multiplyScalar, Vec3.add, Vec3.zero, Vec3.mk.injEq, Real.cos_zero,
    Real.sin_zero]

theorem proj_at_pi :
    sampleBehindCamera.project (calculateVertex sampleDegenerateArc π) =
      ⟨1 / 4, 0, 0⟩ := by
  norm_num [ProjectionPlaneCamera.project, calculateVertex, sampleDegenerateArc,
    sampleBehindCamera, Vec3.subtract, Vec3.vectorDot, Vec3.addScaled,
    Vec3.multiplyScalar, Vec3.add, Vec3.zero, Vec3.mk.injEq, Real.cos_pi,
    Real.sin_pi]

theorem proj_at_pi_div_two :
    sampleBehindCamera.project (calculateVertex sampleDegenerateArc (π / 2)) =
      ⟨0, -(1 / 4), 0⟩ := by
  norm_num [ProjectionPlaneCamera.project, calculateVertex, sampleDegenerateArc,
    sampleBehindCamera, Vec3.subtract, Vec3.vectorDot, Vec3.addScaled,
    Vec3.multiplyScalar, Vec3.add, Vec3.zero, Vec3.mk.injEq, Real.cos_pi_div_two,
    Real.sin_pi_div_two]

theorem projectCircularAngle_plane (p : EllipticalArcParameters)
    (c : ProjectionPlaneCamera) (o : EllipticalArcParameters) :
    (projectCircularAngle p c o).plane = o.plane ∨
    (projectCircularAngle p c o).plane =
      PlaneDirections.mk o.plane.xHat (o.plane.yHat.multiplyScalar (-1)) := by
  rw [projectCircularAngle]
  dsimp only
  exact Or.symm (ite_eq_or_eq _ _ _)

theorem degOrigin_eval : ((Vec3.mk (-(1 / 4)) 0 0).add
    ⟨1 / 4, 0, 0⟩).multiplyScalar (1 / 2) = ⟨0, 0, 0⟩ := by
  norm_num [Vec3.add, Vec3.multiplyScalar, Vec3.mk.injEq]

theorem degDistX_eval : (Vec3.mk (1 / 4) 0 0).distanceTo ⟨0, 0, 0⟩ = 1 / 4 := by
  rw [Vec3.distanceTo]
  rw [show ((1 : ℝ) / 4 - 0) * (1 / 4 - 0) + ((0 : ℝ) - 0) * (0 - 0) +
      ((0 : ℝ) - 0) * (0 - 0) = (1 / 4) ^ 2 by norm_num]
  exact Real.sqrt_sq (by norm_num)

theorem degDistY_eval : (Vec3.mk 0 (-(1 / 4)) 0).distanceTo ⟨0, 0, 0⟩ =
    1 / 4 := by
  rw [Vec3.distanceTo]
  rw [show ((0 : ℝ) - 0) * (0 - 0) + (-(1 / 4) - 0) * (-(1 / 4) - 0) +
      ((0 : ℝ) - 0) * (0 - 0) = (1 / 4) ^ 2 by norm_num]
  exact Real.sqrt_sq (by norm_num)

theorem degProj_reduces :
    calcDegenerateProjection sampleDegenerateArc sampleBehindCamera
        sampleOutArc 1 =
      projectCircularAngle sampleDegenerateArc sampleBehindCamera
        { origin := ⟨0, 0, 0⟩,
          plane := ⟨⟨1, 0, 0⟩, ⟨0, 1, 0⟩⟩,
          circularAngle := sampleOutArc.circularAngle,
          semiXAxis := 1 / 4, semiYAxis := 1 / 4 } := by
  rw [calcDegenerateProjection]
  simp only [proj_at_zero, proj_at_pi, proj_at_pi_div_two, degOrigin_eval,
    degDistX_eval, degDistY_eval]
  rw [if_neg (by rw [abs_of_pos (by norm_num : (0:ℝ) < 1 / 4)]; norm_num),
    if_neg (by rw [abs_of_pos (by norm_num : (0:ℝ) < 1 / 4)]; norm_num)]
  rfl

theorem degProj_plane :
    (calcDegenerateProjection sampleDegenerateArc sampleBehindCamera
        sampleOutArc 1).plane = ⟨⟨1, 0, 0⟩, ⟨0, -1, 0⟩⟩ := by
  have hang1 : circularAngleForEllipsePoint
      { origin := ⟨0, 0, 0⟩,
        plane := ⟨⟨1, 0, 0⟩, ⟨0, 1, 0⟩⟩,
        circularAngle := sampleOutArc.circularAngle,
        semiXAxis := 1 / 4, semiYAxis := 1 / 4 }
      ⟨-(1 / 4), 0, 0⟩ = π := by
    norm_num [circularAngleForEllipsePoint, Vec3.vectorDot, atan2,
      Real.arctan_zero]
  have hang2 : circularAngleForEllipsePoint
      { origin := ⟨0, 0, 0⟩,
        plane := ⟨⟨1, 0, 0⟩, ⟨0, 1, 0⟩⟩,
        circularAngle := sampleOutArc.circularAngle,
        semiXAxis := 1 / 4, semiYAxis := 1 / 4 }
      ⟨1 / 4, 0, 0⟩ = 0 := by
    norm_num [circularAngleForEllipsePoint, Vec3.vectorDot, atan2,
      Real.arctan_zero]
  have hsub1 : (Vec3.mk (-(1 / 4)) 0 0).subtract ⟨0, 0, 0⟩ = ⟨-(1 / 4), 0, 0⟩ := by
    norm_num [Vec3.subtract, Vec3.mk.injEq]
  have hsub2 : (Vec3.mk (1 / 4) 0 0).subtract ⟨0, 0, 0⟩ = ⟨1 / 4, 0, 0⟩ := by
    norm_num [Vec3.subtract, Vec3.mk.injEq]
  rw [degProj_reduces, projectCircularAngle]
  dsimp only
  rw [show sampleDegenerateArc.circularAngle.start = 0 from rfl,
    show sampleDegenerateArc.circularAngle.stop = π from rfl,
    proj_at_zero, proj_at_pi, hsub1, hsub2, hang1, hang2]
  rw [if_pos (Or.inr ⟨Real.pi_pos,
    show sampleDegenerateArc.circularAngle.size > 0 by
      rw [show sampleDegenerateArc.circularAngle.size = π - 0 from rfl]
      simpa using Real.pi_pos⟩)]
  norm_num [Vec3.multiplyScalar, PlaneDirections.mk.injEq, Vec3.mk.injEq]

/-- C5 (amended): for an arc with `|semiXAxis| < eps`, `projectToCamera`
with a perspective camera takes the degenerate-projection path and returns a
result; when both projected semi-axes are also below `eps`, the output
plane's `xHat` is the camera's `xHat` and its `yHat` is the camera's `yHat`
or its negation (the direction-flip step of `projectCircularAngle` may
negate it). -/
theorem degenerateProjection_plane_from_camera_basis (p : EllipticalArcParameters)
    (c : ProjectionPlaneCamera) (out_prev : EllipticalArcParameters) (eps : ℝ)
    (ha : |p.semiXAxis| < eps)
    (hsx : |(c.project (calculateVertex p π)).distanceTo
        (((c.project (calculateVertex p 0)).add
          (c.project (calculateVertex p π))).multiplyScalar (1 / 2))| < eps)
    (hsy : |(c.project (calculateVertex p (π / 2))).distanceTo
        (((c.project (calculateVertex p 0)).add
          (c.project (calculateVertex p π))).multiplyScalar (1 / 2))| < eps) :
    projectToCamera p c out_prev eps =
      some (calcDegenerateProjection p c out_prev eps) ∧
    (calcDegenerateProjection p c out_prev eps).plane.xHat = c.xHat ∧
    ((calcDegenerateProjection p c out_prev eps).plane.yHat = c.yHat ∨
     (calcDegenerateProjection p c out_prev eps).plane.yHat =
       c.yHat.multiplyScalar (-1)) := by
  have hAx : calcSkewedConeInInputEllipseFrame p c eps =
      SkewedEllipticalConeResult.AxisDegenerate := by
    rw [calcSkewedConeInInputEllipseFrame, if_pos (Or.inl ha)]
  have hfall : calcDegenerateProjection p c out_prev eps =
      projectCircularAngle p c
        { origin := ((c.project (calculateVertex p 0)).add
            (c.project (calculateVertex p π))).multiplyScalar (1 / 2),
          plane := ⟨c.xHat, c.yHat⟩,
          circularAngle := out_prev.circularAngle,
          semiXAxis := (c.project (calculateVertex p π)).distanceTo
            (((c.project (calculateVertex p 0)).add
              (c.project (calculateVertex p π))).multiplyScalar (1 / 2)),
          semiYAxis := (c.project (calculateVertex p (π / 2))).distanceTo
            (((c.project (calculateVertex p 0)).add
              (c.project (calculateVertex p π))).multiplyScalar (1 / 2)) } := by
    rw [calcDegenerateProjection]
    dsimp only
    rw [if_neg (not_le.mpr hsx), if_neg (not_le.mpr hsy)]
  refine ⟨by rw [projectToCamera, hAx], ?_⟩
  rw [hfall]
  have hpl := projectCircularAngle_plane p c
    { origin := ((c.project (calculateVertex p 0)).add
        (c.project (calculateVertex p π))).multiplyScalar (1 / 2),
      plane := ⟨c.xHat, c.yHat⟩,
      circularAngle := out_prev.circularAngle,
      semiXAxis := (c.project (calculateVertex p π)).distanceTo
        (((c.project (calculateVertex p 0)).add
          (c.project (calculateVertex p π))).multiplyScalar (1 / 2)),
      semiYAxis := (c.project (calculateVertex p (π / 2))).distanceTo
        (((c.project (calculateVertex p 0)).add
          (c.project (calculateVertex p π))).multiplyScalar (1 / 2)) }
  rcases hpl with hp | hp
  · exact ⟨by rw [hp], Or.inl (by rw [hp])⟩
  · exact ⟨by rw [hp], Or.inr (by rw [hp])⟩

/-- C5 counterexample: the radius-`1/2` circle viewed from `(0, 0, -2)` with
the identity camera basis and `eps = 1` satisfies every premise of the claim
(both input semi-axes below `eps`, both projected semi-axes below `eps`, the
degenerate path returns a result), yet the output plane's `yHat` is the
negation of the camera's `yHat`, not the camera's `yHat`. -/
theorem degenerateProjection_yHat_counterexample :
    |sampleDegenerateArc.semiXAxis| < 1 ∧ |sampleDegenerateArc.semiYAxis| < 1 ∧
    ∃ out, projectToCamera sampleDegenerateArc sampleBehindCamera sampleOutArc 1 =
        some out ∧
      |out.semiXAxis| < 1 ∧ |out.semiYAxis| < 1 ∧
      out.plane.xHat = sampleBehindCamera.xHat ∧
      out.plane.yHat ≠ sampleBehindCamera.yHat := by
  have hhalf : |(1 : ℝ) / 2| < 1 := by
    rw [abs_of_pos (by norm_num : (0:ℝ) < 1 / 2)]
    norm_num
  have hquart : |(1 : ℝ) / 4| < 1 := by
    rw [abs_of_pos (by norm_num : (0:ℝ) < 1 / 4)]
    norm_num
  refine ⟨hhalf, hhalf, calcDegenerateProjection sampleDegenerateArc
    sampleBehindCamera sampleOutArc 1, ?_, ?_, ?_, ?_, ?_⟩
  · have hsd : |sampleDegenerateArc.semiXAxis| < 1 := hhalf
    have hAx : calcSkewedConeInInputEllipseFrame sampleDegenerateArc
        sampleBehindCamera 1 =
        SkewedEllipticalConeResult.AxisDegenerate := by
      rw [calcSkewedConeInInputEllipseFrame, if_pos (Or.inl hsd)]
    rw [projectToCamera, hAx]
  · rw [degProj_reduces, projectCircularAngle_semiXAxis]
    exact hquart
  · rw [degProj_reduces, projectCircularAngle_semiYAxis]
    exact hquart
  · rw [degProj_plane]
    rfl
  · rw [degProj_plane]
    intro hcontr
    have := congrArg Vec3.y hcontr
    norm_num [sampleBehindCamera] at this

/-- Closed instance of the amended C5 theorem at the degenerate sample
inputs. -/
theorem degenerateProjection_plane_from_camera_basis_witness :
    projectToCamera sampleDegenerateArc sampleBehindCamera sampleOutArc 1 =
      some (calcDegenerateProjection sampleDegenerateArc sampleBehindCamera
        sampleOutArc 1) ∧
    (calcDegenerateProjection sampleDegenerateArc sampleBehindCamera
        sampleOutArc 1).plane.xHat = sampleBehindCamera.xHat ∧
    ((calcDegenerateProjection sampleDegenerateArc sampleBehindCamera
        sampleOutArc 1).plane.yHat = sampleBehindCamera.yHat ∨
     (calcDegenerateProjection sampleDegenerateArc sampleBehindCamera
        sampleOutArc 1).plane.yHat =
       sampleBehindCamera.yHat.multiplyScalar (-1)) :=
  degenerateProjection_plane_from_camera_basis sampleDegenerateArc
    sampleBehindCamera sampleOutArc 1
    (by rw [show sampleDegenerateArc.semiXAxis = 1 / 2 from rfl,
        abs_of_pos (by norm_num : (0:ℝ) < 1 / 2)]; norm_num)
    (by rw [proj_at_zero, proj_at_pi, degOrigin_eval, degDistX_eval,
        abs_of_pos (by norm_num : (0:ℝ) < 1 / 4)]; norm_num)
    (by rw [proj_at_zero, proj_at_pi, proj_at_pi_div_two, degOrigin_eval,
        degDistY_eval, abs_of_pos (by norm_num : (0:ℝ) < 1 / 4)]; norm_num)

end

end Archytas
